import Mathlib

/-!
Verification of the reconciliation/diff engine of vsc-administration.

The Python sources under src/ are shallowly embedded: command argument
vectors become `List String`, Python dicts become insertion-ordered
association lists, Python sets become duplicate-free lists (Python set
iteration order is unspecified; we canonicalise with `List.dedup`),
machine integers become `Int`, and code paths that raise exceptions
return `Except String`.  Logging calls are recorded as a trace of
(level, format-string tag) pairs where a claim depends on them.
-/

namespace VscAdmin

/-- A single external command: the argv list, as built by the command
builder functions in the Python sources. -/
abbrev Cmd := List String

/-- Path constant `SLURM_SACCT_MGR` from sync.py / sacctmgr.py. -/
def SLURM_SACCT_MGR : String := "/usr/bin/sacctmgr"

/-- Path constant `SLURM_SCANCEL` from sync.py / scancel.py. -/
def SLURM_SCANCEL : String := "/usr/bin/scancel"

/-- Path constant `SLURM_SCONTROL` from scontrol.py. -/
def SLURM_SCONTROL : String := "/usr/bin/scontrol"

/-- The four institutes that key the fixed lookup table
`SLURM_ORGANISATIONS`; the constants ANTWERPEN/BRUSSEL/GENT/LEUVEN come
from the external package vsc.config.base and are the lower-case
institute names. -/
inductive Institute where
  | antwerpen
  | brussel
  | gent
  | leuven
deriving DecidableEq, Repr

/-- The institute name string, i.e. the value of the external
vsc.config.base constants ANTWERPEN, BRUSSEL, GENT, LEUVEN. -/
def Institute.instName : Institute → String
  | .antwerpen => "antwerpen"
  | .brussel => "brussel"
  | .gent => "gent"
  | .leuven => "leuven"

/-- The fixed organisation lookup table `SLURM_ORGANISATIONS`
(sync.py lines 32-37, sacctmgr.py lines 30-35). -/
def SLURM_ORGANISATIONS : Institute → String
  | .antwerpen => "uantwerpen"
  | .brussel => "vub"
  | .gent => "ugent"
  | .leuven => "kuleuven"

/-! ## Python collection helpers

Python `dict` is an insertion-ordered map; we embed it as an
association list where inserting an existing key updates the value in
place and inserting a new key appends.  Python `set` has unspecified
iteration order; we canonicalise set values with `List.dedup`. -/

/-- Python dict assignment `d[k] = v`: update in place when the key is
present, append otherwise. -/
def dictInsert {α : Type} (d : List (String × α)) (k : String) (v : α) :
    List (String × α) :=
  match d with
  | [] => [(k, v)]
  | (k0, v0) :: rest =>
      if k0 = k then (k0, v) :: rest else (k0, v0) :: dictInsert rest k v

/-- Python dict lookup `d[k]` / `d.get(k)`, returning `none` where
Python would raise `KeyError`. -/
def dictFind {α : Type} (d : List (String × α)) (k : String) : Option α :=
  match d with
  | [] => none
  | (k0, v0) :: rest => if k0 = k then some v0 else dictFind rest k

/-- Python `dict(pairs)`: fold the pairs with insert-overwrite. -/
def dictOf {α : Type} (pairs : List (String × α)) : List (String × α) :=
  pairs.foldl (fun d kv => dictInsert d kv.1 kv.2) []

/-- The keys of an embedded dict, in insertion order (`d.keys()`). -/
def dictKeys {α : Type} (d : List (String × α)) : List String := d.map Prod.fst

/-- Python set construction from a list: canonical duplicate-free list. -/
def pySet {α : Type} [DecidableEq α] (l : List α) : List α := l.dedup

/-- Python set difference `a - b` on canonicalised lists. -/
def pyDiff {α : Type} [DecidableEq α] (a b : List α) : List α :=
  (pySet a).filter (fun x => ¬ x ∈ b)

/-- Python set intersection `a & b` on canonicalised lists. -/
def pyInter {α : Type} [DecidableEq α] (a b : List α) : List α :=
  (pySet a).filter (fun x => x ∈ b)

/-- Python set union `a | b` on canonicalised lists. -/
def pyUnion {α : Type} [DecidableEq α] (a b : List α) : List α :=
  a ++ (pySet b).filter (fun x => ¬ x ∈ a)

/-- Lexicographic comparison of character lists by code point, the
order Python uses for `sorted` on strings. -/
def charListLe : List Char → List Char → Bool
  | [], _ => true
  | _ :: _, [] => false
  | a :: as, b :: bs =>
      if a.val < b.val then true
      else if b.val < a.val then false
      else charListLe as bs

/-- String comparison by code points, as Python `<=` on strings. -/
def strLe (a b : String) : Bool := charListLe a.data b.data

/-- Python `sorted(list(s))` for string sets. -/
def pySorted (l : List String) : List String :=
  l.insertionSort (fun a b => strLe a b = true)

/-- Python `str.startswith`, embedded on the character lists. -/
def pyStartswith (s pre : String) : Bool := pre.data.isPrefixOf s.data

/-! ## Command builders

Each builder is a pure function from entity attributes to an argv
list, embedded from sync.py, sacctmgr.py, scancel.py and scontrol.py.
Where sync.py and a decorated sacctmgr.py builder produce the same
argv, a single definition stands for both. -/

/-- Python `parent or "root"` from `create_add_account_command`. -/
def parentOrRoot (parent : Option String) : String :=
  match parent with
  | none => "root"
  | some p => if p = "" then "root" else p

/-- `create_add_account_command` (sync.py lines 180-215; identical argv
from the decorated sacctmgr.py lines 201-234). -/
def create_add_account_command (account : String) (parent : Option String)
    (organisation : Institute) (cluster : String)
    (fairshare : Option Int) (qos : Option String) : Cmd :=
  [SLURM_SACCT_MGR, "-i", "add", "account", account,
    "Parent=" ++ parentOrRoot parent,
    "Organization=" ++ SLURM_ORGANISATIONS organisation,
    "Cluster=" ++ cluster]
  ++ (match fairshare with
      | some f => ["Fairshare=" ++ toString f]
      | none => [])
  ++ (match qos with
      | some q => ["Qos=" ++ q]
      | none => [])

/-- `create_change_account_fairshare_command` (sync.py lines 218-236;
identical argv from sacctmgr.py lines 261-277). -/
def create_change_account_fairshare_command (account cluster : String)
    (fairshare : Int) : Cmd :=
  [SLURM_SACCT_MGR, "-i", "modify", "account",
    "name=" ++ account, "cluster=" ++ cluster, "set",
    "fairshare=" ++ toString fairshare]

/-- `create_add_user_command` (sync.py lines 239-270; identical argv
from sacctmgr.py lines 280-309).  Note the source appends
`DefaultAccount={account}` built from the `account` parameter whenever
`default_account` is not `None`; the value of `default_account` itself
is not used. -/
def create_add_user_command (user account cluster : String)
    (default_account : Option String) : Cmd :=
  [SLURM_SACCT_MGR, "-i", "add", "user", user,
    "Account=" ++ account, "Cluster=" ++ cluster]
  ++ (match default_account with
      | some _ => ["DefaultAccount=" ++ account]
      | none => [])

/-- `create_default_account_command` (sync.py lines 273-296). -/
def create_default_account_command (user account cluster : String) : Cmd :=
  [SLURM_SACCT_MGR, "-i", "modify", "user",
    "Name=" ++ user, "Cluster=" ++ cluster, "set",
    "DefaultAccount=" ++ account]

/-- `create_remove_user_jobs_command` (sync.py lines 358-375 and
scancel.py lines 21-38). -/
def create_remove_user_jobs_command (user cluster : String)
    (state : Option String) (account : Option String) : Cmd :=
  [SLURM_SCANCEL, "--cluster=" ++ cluster, "--user=" ++ user]
  ++ (match state with
      | some s => ["--state=" ++ s]
      | none => [])
  ++ (match account with
      | some a => ["--account=" ++ a]
      | none => [])

/-- `create_change_user_command` (sync.py lines 299-333): the four
commands to move a user between accounts; the third is the
job-cancel command for the old association. -/
def create_change_user_command (user current_vo_id new_vo_id cluster : String) :
    List Cmd :=
  [create_add_user_command user new_vo_id cluster none,
   create_default_account_command user new_vo_id cluster,
   create_remove_user_jobs_command user cluster none (some current_vo_id),
   [SLURM_SACCT_MGR, "-i", "delete", "user",
     "name=" ++ user, "Account=" ++ current_vo_id, "Cluster=" ++ cluster]]

/-- `create_remove_user_command` (sync.py lines 336-355). -/
def create_remove_user_command (user cluster : String) : Cmd :=
  [SLURM_SACCT_MGR, "-i", "delete", "user",
    "name=" ++ user, "Cluster=" ++ cluster]

/-- The pending-jobs cancel command of
`create_remove_jobs_for_account_command`. -/
def cancelPendingCmd (account cluster : String) : Cmd :=
  [SLURM_SCANCEL, "--cluster=" ++ cluster, "--account=" ++ account,
    "--state=PENDING"]

/-- The suspended-jobs cancel command of
`create_remove_jobs_for_account_command`. -/
def cancelSuspendedCmd (account cluster : String) : Cmd :=
  [SLURM_SCANCEL, "--cluster=" ++ cluster, "--account=" ++ account,
    "--state=SUSPENDED"]

/-- `create_remove_jobs_for_account_command` (sync.py lines 378-397 and
scancel.py lines 41-60): one PENDING and one SUSPENDED scancel. -/
def create_remove_jobs_for_account_command (account cluster : String) :
    List Cmd :=
  [cancelPendingCmd account cluster, cancelSuspendedCmd account cluster]

/-- `create_remove_account_command` (sync.py lines 400-420; the
sacctmgr.py variant spells the verb "remove" instead of "delete"). -/
def create_remove_account_command (account cluster : String) : Cmd :=
  [SLURM_SACCT_MGR, "-i", "delete", "account",
    "Name=" ++ account, "Cluster=" ++ cluster]

/-- `create_remove_user_account_command` (sync.py lines 423-444). -/
def create_remove_user_account_command (user account cluster : String) : Cmd :=
  [SLURM_SACCT_MGR, "-i", "delete", "user",
    "Name=" ++ user, "Account=" ++ account, "Cluster=" ++ cluster]

/-- `create_add_qos_command` (sync.py lines 447-460). -/
def create_add_qos_command (name : String) : Cmd :=
  [SLURM_SACCT_MGR, "-i", "add", "qos", "Name=" ++ name]

/-- `create_remove_qos_command` (sync.py lines 462-478). -/
def create_remove_qos_command (name : String) : Cmd :=
  [SLURM_SACCT_MGR, "-i", "remove", "qos", "where", "Name=" ++ name]

/-- A Python dict of string settings, as an insertion-ordered
association list. -/
abbrev Settings := List (String × String)

/-- `create_modify_qos_command` (sync.py lines 481-502; identical argv
from sacctmgr.py lines 437-456).  The caller-supplied settings are
appended by iterating `settings.items()`, i.e. in dict insertion
order. -/
def create_modify_qos_command (name : String) (settings : Settings) : Cmd :=
  [SLURM_SACCT_MGR, "-i", "modify", "qos", name, "set",
    "flags=NoDecay,DenyOnLimit"]
  ++ settings.map (fun kv => kv.1 ++ "=" ++ kv.2)

/-- `create_add_resource_license_command` (sacctmgr.py lines 459-476). -/
def create_add_resource_license_command (name server stype : String)
    (clusters : List String) (count : Int) : Cmd :=
  [SLURM_SACCT_MGR, "-i", "add", "resource", "Type=license",
    "Name=" ++ name, "Server=" ++ server, "ServerType=" ++ stype,
    "Cluster=" ++ String.intercalate "," clusters,
    "Count=" ++ toString count, "PercentAllowed=100"]

/-- `create_remove_resource_license_command` (sacctmgr.py lines 479-494). -/
def create_remove_resource_license_command (name server stype : String) : Cmd :=
  [SLURM_SACCT_MGR, "-i", "remove", "resource", "where", "Type=license",
    "Name=" ++ name, "Server=" ++ server, "ServerType=" ++ stype]

/-- `create_modify_resource_license_command` (sacctmgr.py lines 497-513). -/
def create_modify_resource_license_command (name server stype : String)
    (count : Int) : Cmd :=
  [SLURM_SACCT_MGR, "-i", "modify", "resource", "where",
    "Name=" ++ name, "Server=" ++ server, "ServerType=" ++ stype,
    "set", "Count=" ++ toString count]

/-- `LICENSE_RESERVATION_PREFIX` (scontrol.py line 34). -/
def licenseReservationNamePre : String := "external_license_"

/-- `make_license_reservation_name` (scontrol.py lines 202-204). -/
def make_license_reservation_name (licname : String) : String :=
  licenseReservationNamePre ++ licname

/-- `_settings_args` (scontrol.py lines 207-209): settings rendered as
`k=v`, sorted by key. -/
def settingsArgs (settings : Settings) : List String :=
  (pySorted (dictKeys settings)).map
    (fun k => k ++ "=" ++ ((dictFind settings k).getD ""))

/-- `create_create_reservation` (scontrol.py lines 212-223). -/
def create_create_reservation (reservation : String) (settings : Settings) :
    Cmd :=
  [SLURM_SCONTROL, "create", "reservation",
    "ReservationName=" ++ reservation] ++ settingsArgs settings

/-- `create_update_reservation` (scontrol.py lines 226-238). -/
def create_update_reservation (reservation : String) (settings : Settings) :
    Cmd :=
  [SLURM_SCONTROL, "update", "reservation",
    "ReservationName=" ++ reservation] ++ settingsArgs settings

/-- `create_delete_reservation` (scontrol.py lines 241-250). -/
def create_delete_reservation (reservation : String) : Cmd :=
  [SLURM_SCONTROL, "delete", "reservation",
    "ReservationName=" ++ reservation]

/-- `create_create_license_reservation` (scontrol.py lines 253-270):
a 20-year duration, pinned to user root, license-only, zero nodes. -/
def create_create_license_reservation (licname : String) (value : Int)
    (partition : String) : Cmd :=
  create_create_reservation (make_license_reservation_name licname)
    [("Licenses", licname ++ ":" ++ toString value),
     ("Partition", partition),
     ("Start", "now"),
     ("Duration", toString (20 * 365 : Nat) ++ "-0:0:0"),
     ("User", "root"),
     ("Flags", "LICENSE_ONLY"),
     ("NodeCnt", "0")]

/-- `create_update_license_reservation` (scontrol.py lines 273-281). -/
def create_update_license_reservation (licname : String) (value : Int) : Cmd :=
  create_update_reservation (make_license_reservation_name licname)
    [("Licenses", licname ++ ":" ++ toString value)]

/-! ## Sync-layer records

These mirror the named tuples consumed by the reconcilers in sync.py.
The tabular parser delivers all fields as strings; the reconcilers use
only the fields below, with `Share` already coerced by `int(...)` as in
`get_cluster_accounts`. -/

/-- The fields of a `SlurmAccount` record that the reconcilers read. -/
structure SlurmAccount where
  Account : String
  Cluster : String
  Share : Int
deriving DecidableEq, Repr

/-- The fields of a `SlurmUser` record that `slurm_user_accounts`
reads. -/
structure SlurmUser where
  User : String
  Def_Acct : String
  Cluster : String
deriving DecidableEq, Repr

/-- The fields of a `SlurmQos` record that `slurm_project_qos` reads
(`Name`), plus the group TRES-minutes budget so that a converged
observed snapshot can be expressed. -/
structure SlurmQos where
  Name : String
  GrpTRESMins : String
deriving DecidableEq, Repr

/-- An account-page VO as consumed by `slurm_vo_accounts` and
`slurm_user_accounts`: `vsc_id`, `institute['name']` and
`fairshare`. -/
structure VirtualOrg where
  vsc_id : String
  institute : Institute
  fairshare : Int
deriving DecidableEq, Repr

/-- A tier-1 project (`ProjectIniConfig` in
sync_slurm_tier1_projects.py) as consumed by `slurm_project_qos` and
`slurm_project_accounts`: only `name`, `cpu_hours` and `gpu_hours` are
read. -/
structure Project where
  name : String
  cpu_hours : Int
  gpu_hours : Int
deriving DecidableEq, Repr

/-- Log levels of the `logging` calls modelled in this embedding. -/
inductive LogLevel where
  | debug
  | info
  | warning
  | error
deriving DecidableEq, Repr

/-- A recorded logging call: level plus the format-string tag. -/
abbrev LogEvent := LogLevel × String

/-- `TIER1_GPU_TO_CPU_HOURS_RATE` (sync.py line 56). -/
def TIER1_GPU_TO_CPU_HOURS_RATE : Int := 12

/-! ## Entity reconcilers (sync.py) -/

/-- `get_cluster_accounts` (sync.py lines 539-544): dict from account
name to `int(Share)` for the accounts of one cluster.  `None` entries
produced for ignored accounts are already absent from the input
list. -/
def get_cluster_accounts (slurm_account_info : List SlurmAccount)
    (cluster : String) : List (String × Int) :=
  dictOf ((slurm_account_info.filter (fun acct => acct.Cluster = cluster)).map
    (fun acct => (acct.Account, acct.Share)))

/-- `get_cluster_qos` (sync.py lines 547-550): QOS names starting with
the cluster name. -/
def get_cluster_qos (slurm_qos_info : List SlurmQos) (cluster : String) :
    List String :=
  (slurm_qos_info.filter (fun qi => pyStartswith qi.Name cluster)).map
    (fun qi => qi.Name)

/-- The settings dict passed to `create_modify_qos_command` by
`slurm_project_qos` (sync.py lines 566-571). -/
def projectQosSettings (project : Project) : Settings :=
  [("GRPTRESMins",
    "cpu=" ++ toString (60 * project.cpu_hours
        + TIER1_GPU_TO_CPU_HOURS_RATE * 60 * project.gpu_hours)
    ++ ",gres/gpu=" ++ toString (max 1 (60 * project.gpu_hours)))]

/-- The per-project body of the `slurm_project_qos` loop (sync.py
lines 562-571): optionally add the QOS, then unconditionally modify
it. -/
def projectQosCmds (cluster_qos_names : List String) (cluster : String)
    (project : Project) : List Cmd :=
  let qos_name := cluster ++ "-" ++ project.name
  (if qos_name ∈ cluster_qos_names then []
   else [create_add_qos_command qos_name])
  ++ [create_modify_qos_command qos_name (projectQosSettings project)]

/-- The per-cluster body of `slurm_project_qos` (sync.py lines
556-576). -/
def slurmProjectQosCluster (projects : List Project)
    (slurm_qos_info : List SlurmQos) (cluster : String) : List Cmd :=
  let cluster_qos_names := pySet (get_cluster_qos slurm_qos_info cluster)
  let project_qos_names :=
    pySet (projects.map (fun p => cluster ++ "-" ++ p.name))
  (projects.map (projectQosCmds cluster_qos_names cluster)).flatten
  ++ (pyDiff cluster_qos_names project_qos_names).map
      create_remove_qos_command

/-- `slurm_project_qos` (sync.py lines 553-578): ensure a QOS named
`<cluster>-<project>` exists for each desired project, unconditionally
re-issue the modify command carrying the usage budget, and remove
cluster QOS names that no desired project accounts for. -/
def slurm_project_qos (projects : List Project)
    (slurm_qos_info : List SlurmQos) (clusters : List String) : List Cmd :=
  (clusters.map (slurmProjectQosCluster projects slurm_qos_info)).flatten

/-- The add-account command of `slurm_project_accounts` (sync.py lines
598-604): parent "projects", organisation GENT, QOS
`<cluster>-<project>`. -/
def projectAddAccountCmd (cluster project_name : String) : Cmd :=
  create_add_account_command project_name (some "projects")
    Institute.gent cluster none (some (cluster ++ "-" ++ project_name))

/-- The removal block of `slurm_project_accounts` for one vanished
account (sync.py lines 606-613): two job-cancel commands, then the
account removal, or nothing when the account is protected. -/
def projectRemoveCmds (protected_accounts : List String)
    (cluster project_name : String) : List Cmd :=
  if ¬ project_name ∈ protected_accounts then
    create_remove_jobs_for_account_command project_name cluster
    ++ [create_remove_account_command project_name cluster]
  else []

/-- The per-cluster body of `slurm_project_accounts` (sync.py lines
591-613). -/
def slurmProjectAccountsCluster (resource_app_projects : List Project)
    (slurm_account_info : List SlurmAccount)
    (protected_accounts : List String) (cluster : String) : List Cmd :=
  let cluster_accounts :=
    pySet (dictKeys (get_cluster_accounts slurm_account_info cluster))
  let resource_app_project_names :=
    pySet (resource_app_projects.map (fun p => p.name))
  ((pyDiff resource_app_project_names cluster_accounts).filter
      (fun project_name => ¬ project_name ∈ cluster_accounts)).map
    (projectAddAccountCmd cluster)
  ++ ((pyDiff cluster_accounts resource_app_project_names).map
      (projectRemoveCmds protected_accounts cluster)).flatten

/-- `slurm_project_accounts` (sync.py lines 585-615): create missing
project accounts under parent "projects" with the project QOS; for
observed accounts no longer desired and not protected, cancel pending
and suspended jobs and then remove the account. -/
def slurm_project_accounts (resource_app_projects : List Project)
    (slurm_account_info : List SlurmAccount)
    (clusters protected_accounts : List String) : List Cmd :=
  (clusters.map
    (slurmProjectAccountsCluster resource_app_projects slurm_account_info
      protected_accounts)).flatten

/-- The per-VO body of the `slurm_vo_accounts` loop (sync.py lines
627-651): skip institute-default VOs, add a missing account, or update
a changed fairshare. -/
def voAccountCmds (cluster_accounts : List (String × Int))
    (institute_default_vos : List String) (cluster : String)
    (vo : VirtualOrg) : List Cmd :=
  if vo.vsc_id ∈ institute_default_vos then []
  else
    match dictFind cluster_accounts vo.vsc_id with
    | none =>
        [create_add_account_command vo.vsc_id
          (some vo.institute.instName) vo.institute cluster
          (some vo.fairshare) none]
    | some share =>
        if vo.fairshare ≠ share then
          [create_change_account_fairshare_command vo.vsc_id cluster
            vo.fairshare]
        else []

/-- The per-cluster body of `slurm_vo_accounts` (sync.py lines
624-651). -/
def slurmVoAccountsCluster (account_page_vos : List VirtualOrg)
    (slurm_account_info : List SlurmAccount)
    (institute_default_vos : List String) (cluster : String) : List Cmd :=
  let cluster_accounts := get_cluster_accounts slurm_account_info cluster
  (account_page_vos.map
    (voAccountCmds cluster_accounts institute_default_vos cluster)).flatten

/-- `slurm_vo_accounts` (sync.py lines 618-653).  The parameter
`institute_default_vos` models the values of the external configuration
constant `INSTITUTE_VOS_BY_INSTITUTE[host_institute]` (vsc.config.base)
used to skip the per-institute default VOs. -/
def slurm_vo_accounts (account_page_vos : List VirtualOrg)
    (slurm_account_info : List SlurmAccount) (clusters : List String)
    (institute_default_vos : List String) : List Cmd :=
  (clusters.map
    (slurmVoAccountsCluster account_page_vos slurm_account_info
      institute_default_vos)).flatten

/-! ## `slurm_user_accounts` (sync.py lines 717-803)

The dry-run-only best-effort recovery block (lines 769-775) is not
modelled: the claims about this function concern the `dry_run=False`
path.  The `logging.warning` call of the `KeyError` handler and the
three `logging.debug` calls are recorded in the log trace. -/

/-- Tag of the warning logged when a changed user is missing from the
reverse VO map (sync.py line 768). -/
def revMapWarnTag : String :=
  "Found user not belonging to any VO in the reverse VO map: %s"

/-- A moved user: `(user, current_vo_id, (new_vo_id, institute))`. -/
abbrev MovedUser := String × String × String × String

/-- Accumulator of the per-VO loop in `slurm_user_accounts`. -/
structure UserSyncState where
  new_users : List (String × String × String)
  changed_users : List String
  moved_users : List MovedUser
  logs : List LogEvent
deriving DecidableEq, Repr

/-- `reverse_vo_mapping` (sync.py lines 726-732): maps each member to
`(vo.vsc_id, vo.institute['name'])`; later VOs overwrite earlier
entries for shared members, as Python dict assignment does. -/
def reverseVoMapping
    (vo_members : List (String × (List String × VirtualOrg))) :
    List (String × (String × String)) :=
  vo_members.foldl
    (fun rev entry =>
      entry.2.1.foldl
        (fun rev m =>
          dictInsert rev m (entry.2.2.vsc_id, entry.2.2.institute.instName))
        rev)
    []

/-- `active_vo_members` (sync.py lines 725-729): union over all VOs of
members intersected with the active accounts. -/
def activeVoMembers
    (vo_members : List (String × (List String × VirtualOrg)))
    (active_accounts : List String) : List String :=
  vo_members.foldl
    (fun acc entry => pyUnion acc (pyInter entry.2.1 active_accounts)) []

/-- The `cluster_users_acct` pairs of `slurm_user_accounts` (sync.py
lines 735-737): `(User, Def_Acct)` for one cluster. -/
def clusterUsersAcct (slurm_user_info : List SlurmUser) (cluster : String) :
    List (String × String) :=
  (slurm_user_info.filter (fun user => user.Cluster = cluster)).map
    (fun user => (user.User, user.Def_Acct))

/-- `changed_users_vo` (sync.py line 762): the slurm users of one
account that are no longer members but still active. -/
def changedUsersVo (active_accounts : List String)
    (cluster_users_acct : List (String × String)) (vo_id : String)
    (members : List String) : List String :=
  pyInter
    (pyDiff
      (pySet ((cluster_users_acct.filter (fun ua => ua.2 = vo_id)).map
        Prod.fst))
      members)
    active_accounts

/-- One iteration of the per-VO loop of `slurm_user_accounts`
(sync.py lines 748-775): accumulate new users, changed users and moved
users; when any changed user of this VO is missing from the reverse VO
map, the whole per-VO batch of moved users is discarded (the Python set
comprehension raises `KeyError` before the union is applied) and a
warning is logged. -/
def userSyncStep (reverse_vo_mapping : List (String × (String × String)))
    (active_accounts : List String)
    (cluster_users_acct : List (String × String))
    (cluster_users : List String)
    (st : UserSyncState) (entry : String × (List String × VirtualOrg)) :
    UserSyncState :=
  let vo_id := entry.1
  let members := entry.2.1
  let vo := entry.2.2
  let new_this :=
    (pyDiff (pyInter members active_accounts) cluster_users).map
      (fun user => (user, vo.vsc_id, vo.institute.instName))
  let changed_users_vo :=
    changedUsersVo active_accounts cluster_users_acct vo_id members
  let st1 : UserSyncState :=
    { st with
        new_users := pyUnion st.new_users new_this
        changed_users := pyUnion st.changed_users changed_users_vo }
  if changed_users_vo.all (fun u => (dictFind reverse_vo_mapping u).isSome) then
    { st1 with
        moved_users := pyUnion st1.moved_users
          (changed_users_vo.map (fun u =>
            (u, vo_id, (dictFind reverse_vo_mapping u).getD ("", "")))) }
  else
    { st1 with logs := st1.logs ++ [(LogLevel.warning, revMapWarnTag)] }

/-- The state of the per-VO loop after processing every VO for one
cluster. -/
def userSyncFold (reverse_vo_mapping : List (String × (String × String)))
    (active_accounts : List String)
    (cluster_users_acct : List (String × String))
    (cluster_users : List String)
    (vo_members : List (String × (List String × VirtualOrg))) :
    UserSyncState :=
  vo_members.foldl
    (userSyncStep reverse_vo_mapping active_accounts cluster_users_acct
      cluster_users)
    ⟨[], [], [], []⟩

/-- The per-cluster body of `slurm_user_accounts` (sync.py lines
734-801), returning `(job_cancel_commands, commands, logs)` for one
cluster. -/
def clusterUserSync
    (vo_members : List (String × (List String × VirtualOrg)))
    (active_accounts : List String) (slurm_user_info : List SlurmUser)
    (active_vo_members : List String)
    (reverse_vo_mapping : List (String × (String × String)))
    (cluster : String) : List Cmd × List Cmd × List LogEvent :=
  let cluster_users_acct := clusterUsersAcct slurm_user_info cluster
  let cluster_users := pySet (cluster_users_acct.map Prod.fst)
  let remove_users := pyDiff cluster_users active_vo_members
  let st :=
    userSyncFold reverse_vo_mapping active_accounts cluster_users_acct
      cluster_users vo_members
  let logs := st.logs ++
    [(LogLevel.debug, "%d new users"), (LogLevel.debug, "%d removed users"),
     (LogLevel.debug, "%d changed users")]
  let commands :=
    st.new_users.map (fun t =>
      create_add_user_command t.1 t.2.1 cluster (some t.2.1))
    ++ remove_users.map (fun user => create_remove_user_command user cluster)
    ++ st.moved_users.flatMap (fun t =>
      match create_change_user_command t.1 t.2.1 t.2.2.1 cluster with
      | [add, defaultAccount, _remove_jobs, remove_association_user] =>
          [add, defaultAccount, remove_association_user]
      | _ => [])
  let job_cancel_commands :=
    remove_users.map (fun user =>
      create_remove_user_jobs_command user cluster none none)
    ++ st.moved_users.flatMap (fun t =>
      match create_change_user_command t.1 t.2.1 t.2.2.1 cluster with
      | [_, _, remove_jobs, _] => [remove_jobs]
      | _ => [])
  (job_cancel_commands, commands, logs)

/-- `slurm_user_accounts` (sync.py lines 717-803) on the
`dry_run=False` path: returns the pair of command buckets
`[job_cancel_commands, commands]` together with the log trace. -/
def slurm_user_accounts
    (vo_members : List (String × (List String × VirtualOrg)))
    (active_accounts : List String) (slurm_user_info : List SlurmUser)
    (clusters : List String) : List Cmd × List Cmd × List LogEvent :=
  let active_vo_members := activeVoMembers vo_members active_accounts
  let reverse_vo_mapping := reverseVoMapping vo_members
  ((clusters.map
      (clusterUserSync vo_members active_accounts slurm_user_info
        active_vo_members reverse_vo_mapping)).foldr
    (fun t acc => (t.1 ++ acc.1, t.2.1 ++ acc.2.1, t.2.2 ++ acc.2.2))
    ([], [], []))

/-! ## External license sync (sync_slurm_external_licenses.py)

The observed state (sacctmgr resources, scontrol config, partitions,
licenses and reservations) is passed in as already-parsed records; the
CLI invocations that produce it are external collaborators.  Paths that
raise exceptions (`KeyError` lookups, the cluster and partition
validation) return `Except.error`. -/

/-- A desired license entry of the `licenses_data` dict: `name`, the
license server key (field `ext_server`, a rename of the source's
key naming the external server), `type` (field `ltype`, since `type`
is reserved in Lean), `count`, the probe's `in_use` figure, the `skip`
marker (`.get('skip', False)`), and the `fullname` key set by
`update_license_reservations`. -/
structure License where
  name : String
  ext_server : String
  ltype : String
  count : Int
  in_use : Int
  skip : Bool
  fullname : String
deriving DecidableEq, Repr

/-- A parsed sacctmgr resource record (sacctmgr.py `SlurmResource`),
with `Count` coerced to an integer by `mkSlurmResource`; the `Type`
column is the field `rType`, since `Type` is reserved in Lean. -/
structure SlurmResource where
  Name : String
  Server : String
  rType : String
  Count : Int
  ServerType : String
deriving DecidableEq, Repr

/-- A parsed scontrol license record (scontrol.py `SlurmLicense`), with
the numeric fields coerced by `mkSlurmLicense`. -/
structure SlurmLicense where
  LicenseName : String
  Total : Int
  Used : Int
  Free : Int
  Reserved : Int
deriving DecidableEq, Repr

/-- A parsed scontrol reservation record, restricted to the fields
`update_license_reservations` reads. -/
structure SlurmReservation where
  ReservationName : String
  Licenses : Option String
deriving DecidableEq, Repr

/-- The skip set of `update_licenses` / `update_license_reservations`:
keys whose desired record carries the skip marker. -/
def skipKeys (licenses : List (String × License)) : List String :=
  pySet ((dictKeys licenses).filter
    (fun x => ((dictFind licenses x).map License.skip).getD false))

/-- The observed license-resource dict of `update_licenses` (lines
200-206): License-typed resources not ignored, keyed
`<Name>@<Server>`. -/
def licResourceInfo (ignore_resources : List String)
    (info0 : List SlurmResource) : List (String × SlurmResource) :=
  dictOf ((info0.filter (fun resc =>
    resc.rType = "License" ∧ ¬ resc.Name ∈ ignore_resources)).map
    (fun resc => (resc.Name ++ "@" ++ resc.Server, resc)))

/-- The `rlicenses` dict of `update_license_reservations` (lines
254-258): desired licenses re-keyed by reservation name, with the
`fullname` key set to the original license key. -/
def rlicensesOf (licenses : List (String × License)) :
    List (String × License) :=
  licenses.foldl
    (fun d kv =>
      dictInsert d (make_license_reservation_name kv.1)
        { kv.2 with fullname := kv.1 })
    []

/-- The observed license dict of `update_license_reservations` (line
276), re-keyed by reservation name. -/
def scontrolLicenseDict (scontrol_licenses : List (String × SlurmLicense)) :
    List (String × SlurmLicense) :=
  dictOf (scontrol_licenses.map (fun kv =>
    (make_license_reservation_name kv.1, kv.2)))

/-- The observed license reservations of `update_license_reservations`
(lines 283-287): reservations holding licenses, named with the license
reservation name prefix and not ignored. -/
def licenseReservations (ignore_reservations : List String)
    (scontrol_reservations : List (String × SlurmReservation)) :
    List (String × SlurmReservation) :=
  scontrol_reservations.filter (fun kv =>
    kv.2.Licenses ≠ none
    ∧ pyStartswith kv.2.ReservationName licenseReservationNamePre
    ∧ ¬ kv.1 ∈ ignore_reservations)

/-- The new-resource loop of `update_licenses` (lines 222-226). -/
def licNewCmds (licenses : List (String × License)) (clusters : List String) :
    List String → Except String (List Cmd)
  | [] => .ok []
  | name :: rest =>
      match dictFind licenses name with
      | none => .error "KeyError"
      | some lic => do
          let tail ← licNewCmds licenses clusters rest
          .ok (create_add_resource_license_command lic.name lic.ext_server
                lic.ltype clusters lic.count :: tail)

/-- The update-resource loop of `update_licenses` (lines 228-238):
modify only when the count changed, unless forced. -/
def licUpdateCmds (licenses : List (String × License))
    (info : List (String × SlurmResource)) (force_update : Bool) :
    List String → Except String (List Cmd)
  | [] => .ok []
  | name :: rest =>
      match dictFind licenses name, dictFind info name with
      | some lic, some inf => do
          let tail ← licUpdateCmds licenses info force_update rest
          if force_update ∨ lic.count ≠ inf.Count then
            .ok (create_modify_resource_license_command lic.name lic.ext_server
                  lic.ltype lic.count :: tail)
          else
            .ok tail
      | _, _ => .error "KeyError"

/-- The cleanup loop of `update_licenses` (lines 240-245). -/
def licRemoveCmds (info : List (String × SlurmResource)) :
    List String → Except String (List Cmd)
  | [] => .ok []
  | name :: rest =>
      match dictFind info name with
      | none => .error "KeyError"
      | some lic => do
          let tail ← licRemoveCmds info rest
          .ok (create_remove_resource_license_command lic.Name lic.Server
                lic.ServerType :: tail)

/-- `update_licenses` (sync_slurm_external_licenses.py lines 191-247).
The observed resources (`get_slurm_sacct_info(SacctMgrTypes.resource)`)
are the parameter `info0`.  Entries carrying the skip marker are
removed from both the known and the configured key sets before the
three-way diff. -/
def update_licenses (licenses : List (String × License))
    (clusters : List String) (ignore_resources : List String)
    (force_update : Bool) (info0 : List SlurmResource) :
    Except String (List Cmd × List Cmd) := do
  let info := licResourceInfo ignore_resources info0
  let known0 := pySet (dictKeys info)
  let config0 := pySet (dictKeys licenses)
  let skip := skipKeys licenses
  let known := if skip = [] then known0 else pyDiff known0 skip
  let config := if skip = [] then config0 else pyDiff config0 skip
  let remove := pySorted (pyDiff known config)
  let new := pySorted (pyDiff config known)
  let update := pySorted (pyInter config known)
  let newCmds ← licNewCmds licenses clusters new
  let updateCmds ← licUpdateCmds licenses info force_update update
  let removeCmds ← licRemoveCmds info remove
  .ok (newCmds ++ updateCmds, removeCmds)

/-- Tag of the debug message logged when slurm reports more license
usage than the external server (line 329). -/
def clampDebugTag : String :=
  "More %s licenses used according to slurm %s than reported by server %s"

/-- The new-reservation loop of `update_license_reservations`
(lines 307-311): a fresh reservation takes the probe's `in_use`
figure. -/
def resNewCmds (rlicenses : List (String × License)) (partition : String) :
    List String → Except String (List Cmd × List LogEvent)
  | [] => .ok ([], [])
  | res :: rest =>
      match dictFind rlicenses res with
      | none => .error "KeyError"
      | some lic => do
          let (cmds, logs) ← resNewCmds rlicenses partition rest
          .ok (create_create_license_reservation lic.fullname lic.in_use
                partition :: cmds,
               (LogLevel.debug, "Command to add new license reservation %s")
                 :: logs)

/-- The update-reservation loop of `update_license_reservations`
(lines 313-335): recompute the reserved quantity from the external
`in_use` figure and the usage slurm reports, clamping at zero with a
debug message, and emit an update only on change unless forced. -/
def resUpdateCmds (rlicenses : List (String × License))
    (lics : List (String × SlurmLicense)) (force_update : Bool) :
    List String → Except String (List Cmd × List LogEvent)
  | [] => .ok ([], [])
  | res :: rest =>
      match dictFind rlicenses res, dictFind lics res with
      | some lic, some slic => do
          let (cmds, logs) ← resUpdateCmds rlicenses lics force_update rest
          let current_value := slic.Reserved
          let used := slic.Used
          let in_use := lic.in_use
          let clampLogs :=
            if used > in_use then [(LogLevel.debug, clampDebugTag)] else []
          let value : Int := if used > in_use then 0 else in_use - used
          let newCmds :=
            if force_update ∨ value ≠ current_value then
              [create_update_license_reservation lic.fullname value]
            else []
          .ok (newCmds ++ cmds,
               (LogLevel.debug, "Command to update license reservation %s")
                 :: clampLogs ++ logs)
      | _, _ => .error "KeyError"

/-- The cleanup loop of `update_license_reservations` (lines 337-341). -/
def resRemoveCmds : List String → List Cmd × List LogEvent
  | [] => ([], [])
  | res :: rest =>
      let (cmds, logs) := resRemoveCmds rest
      (create_delete_reservation res :: cmds,
       (LogLevel.debug, "Command to remove license reservation %s") :: logs)

/-- `update_license_reservations` (sync_slurm_external_licenses.py
lines 250-343).  The observed state is passed in: the ClusterName of
`get_scontrol_config()`, the partition names of
`get_scontrol_info(partition)`, the license dict of
`get_scontrol_info(license)` and the reservation dict of
`get_scontrol_info(reservation)`.  Cluster or partition mismatch is the
fatal `Wrong cluster` / `Wrong partition` error.  Skip-marked entries
are removed from both key sets before the three-way diff. -/
def update_license_reservations (licenses : List (String × License))
    (cluster partition : String) (ignore_reservations : List String)
    (force_update : Bool) (configClusterName : String)
    (partitions : List String)
    (scontrol_licenses : List (String × SlurmLicense))
    (scontrol_reservations : List (String × SlurmReservation)) :
    Except String (List Cmd × List Cmd × List LogEvent) := do
  let rlicenses := rlicensesOf licenses
  if cluster ≠ configClusterName then
    .error "Wrong cluster"
  else if ¬ partition ∈ partitions then
    .error "Wrong partition"
  else do
    let lics := scontrolLicenseDict scontrol_licenses
    let ress := licenseReservations ignore_reservations
      scontrol_reservations
    let known0 := pySet (dictKeys ress)
    let config0 := pySet (dictKeys rlicenses)
    let skip := skipKeys rlicenses
    let skipLogs :=
      if skip = [] then ([] : List LogEvent)
      else [(LogLevel.warning, "License reservations to skip: %s")]
    let known := if skip = [] then known0 else pyDiff known0 skip
    let config := if skip = [] then config0 else pyDiff config0 skip
    let remove := pySorted (pyDiff known config)
    let new := pySorted (pyDiff config known)
    let update := pySorted (pyInter config known)
    let (newCmds, newLogs) ← resNewCmds rlicenses partition new
    let (updateCmds, updateLogs) ← resUpdateCmds rlicenses lics force_update
      update
    let (removeCmds, removeLogs) := resRemoveCmds remove
    .ok (newCmds ++ updateCmds, removeCmds,
         [(LogLevel.debug, "Existing licenses %s"),
          (LogLevel.debug, "Existing license reservations %s")]
         ++ skipLogs ++ newLogs ++ updateLogs ++ removeLogs)

/-! ## Tabular output parser (sacctmgr.py lines 126-178)

Python string primitives are embedded on the character lists.  A parsed
record is modelled as the field dictionary `dict(zip(header, fields))`
handed to the external named-tuple factory; construction failures and
list-index errors surface as `Except.error`, matching the exceptions
Python raises. -/

/-- Split a character list on a separator character, keeping empty
segments, as Python `str.split` with a one-character separator. -/
def splitOnChar (sep : Char) : List Char → List (List Char)
  | [] => [[]]
  | c :: rest =>
      let r := splitOnChar sep rest
      if c = sep then [] :: r
      else
        match r with
        | [] => [[c]]
        | h :: t => (c :: h) :: t

/-- Python `line.split("|")`. -/
def pySplitPipe (s : String) : List String :=
  (splitOnChar (Char.ofNat 124) s.data).map (fun cs => String.mk cs)

/-- Python `str.rstrip()`. -/
def pyRstrip (s : String) : String :=
  String.mk ((s.data.reverse.dropWhile Char.isWhitespace).reverse)

/-- Replace every occurrence of one character by a replacement string,
as Python `str.replace` with a one-character pattern. -/
def replaceChar (target : Char) (rep : List Char) : List Char → List Char
  | [] => []
  | c :: rest =>
      (if c = target then rep else [c]) ++ replaceChar target rep rest

/-- Python `str.lower()` (the headers are ASCII). -/
def pyLower (s : String) : String := String.mk (s.data.map Char.toLower)

/-- The header normalisation of `parse_slurm_sacct_dump` line 153:
spaces become underscores, `%` becomes `PCT_`. -/
def normaliseHeaderWord (w : String) : String :=
  String.mk (replaceChar (Char.ofNat 37) "PCT_".data
    (replaceChar (Char.ofNat 32) "_".data w.data))

/-- The record kinds of `SacctMgrTypes` (sacctmgr.py lines 42-47). -/
inductive SacctMgrTypes where
  | accounts
  | users
  | qos
  | resource
deriving DecidableEq, Repr

/-- A parsed row: the dictionary `dict(zip(header, fields))` from which
the external named-tuple factory builds the record. -/
abbrev ParsedRow := List (String × String)

/-- Python `dict(zip(header, fields))`: pairs up to the shorter list,
later duplicate headers overwriting. -/
def pyZipDict (header fields : List String) : ParsedRow :=
  dictOf (header.zip fields)

/-- Python `int(s)` on a string: optional surrounding whitespace,
optional sign, decimal digits; `none` where Python raises
`ValueError`. -/
def pyInt (s : String) : Option Int :=
  let cs := (((s.data.dropWhile Char.isWhitespace).reverse.dropWhile
    Char.isWhitespace).reverse)
  let digits : List Char → Option Nat := fun ds =>
    if ds ≠ [] ∧ ds.all Char.isDigit then
      some (ds.foldl (fun n c => 10 * n + (c.toNat - 48)) 0)
    else none
  match cs with
  | [] => none
  | c :: rest =>
      if c = Char.ofNat 45 then (digits rest).map (fun n => -(n : Int))
      else if c = Char.ofNat 43 then (digits rest).map (fun n => (n : Int))
      else (digits cs).map (fun n => (n : Int))

/-- `mkSlurmAccount` (sacctmgr.py lines 87-92): drop the ignored
accounts (`IGNORE_ACCOUNTS = ["root"]`). -/
def mkSlurmAccountRow (d : ParsedRow) : Option ParsedRow :=
  if dictFind d "Account" = some "root" then none else some d

/-- `mkSlurmUser` (sacctmgr.py lines 95-100): drop the ignored users
(`IGNORE_USERS = ["root"]`). -/
def mkSlurmUserRow (d : ParsedRow) : Option ParsedRow :=
  if dictFind d "User" = some "root" then none else some d

/-- `mkSlurmResource` (sacctmgr.py lines 109-113): coerce the `Count`
field with `int(...)`; a missing field is the `KeyError` and a
non-numeric value the `ValueError` Python raises. -/
def mkSlurmResourceRow (d : ParsedRow) : Except String ParsedRow :=
  match dictFind d "Count" with
  | none => .error "KeyError"
  | some c =>
      match pyInt c with
      | none => .error "ValueError"
      | some n => .ok (dictInsert d "Count" (toString n))

/-- `parse_slurm_sacct_line` (sacctmgr.py lines 126-146).  `.ok none`
is a line the creator drops; `.error` is an exception escaping the
line parser (for example the `IndexError` of `fields[...]` on a line
whose split is shorter than the referenced column). -/
def parse_slurm_sacct_line (header : List String) (line : String)
    (info_type : SacctMgrTypes)
    (user_field_number account_field_number : Option Nat)
    (exclude : List String) : Except String (Option ParsedRow) :=
  let fields := pySplitPipe line
  match info_type with
  | .accounts =>
      let afterExclude : Except String (Option ParsedRow) :=
        match account_field_number with
        | none => .error "TypeError"
        | some afn =>
            match fields.get? afn with
            | none => .error "IndexError"
            | some v =>
                if v ∈ exclude then .ok none
                else
                  match user_field_number with
                  | none => .error "TypeError"
                  | some ufn =>
                      match fields.get? ufn with
                      | none => .error "IndexError"
                      | some u =>
                          if u ≠ "" then .ok none
                          else .ok (mkSlurmAccountRow (pyZipDict header fields))
      if exclude = [] then
        match user_field_number with
        | none => .error "TypeError"
        | some ufn =>
            match fields.get? ufn with
            | none => .error "IndexError"
            | some u =>
                if u ≠ "" then .ok none
                else .ok (mkSlurmAccountRow (pyZipDict header fields))
      else afterExclude
  | .users => .ok (mkSlurmUserRow (pyZipDict header fields))
  | .qos => .ok (some (pyZipDict header fields))
  | .resource =>
      (mkSlurmResourceRow (pyZipDict header fields)).map some

/-- `parse_slurm_sacct_dump` (sacctmgr.py lines 149-178).  The header
line fixes the arity and the `user`/`account` column positions; each
further line is parsed, lines the creator drops are skipped, and an
exception raised while parsing a line is logged and RE-RAISED
(`except ... raise`, lines 170-172), aborting the whole invocation. -/
def parse_slurm_sacct_dump (lines : List String)
    (info_type : SacctMgrTypes) (exclude : List String) :
    Except String (List ParsedRow) :=
  match lines with
  | [] => .error "IndexError"
  | l0 :: rest =>
      let header := (pySplitPipe (pyRstrip l0)).map normaliseHeaderWord
      let header_names := header.map pyLower
      let fieldNumbers : Except String (Option Nat × Option Nat) :=
        if info_type = SacctMgrTypes.accounts then
          match header_names.indexOf? "user", header_names.indexOf? "account"
          with
          | some u, some a => .ok (some u, some a)
          | _, _ => .error "ValueError"
        else .ok (none, none)
      match fieldNumbers with
      | .error e => .error e
      | .ok (ufn, afn) =>
          let step : Except String (List ParsedRow) → String →
              Except String (List ParsedRow) := fun acc line =>
            match acc with
            | .error e => .error e
            | .ok info =>
                match parse_slurm_sacct_line header (pyRstrip line) info_type
                  ufn afn exclude with
                | .error e => .error e
                | .ok none => .ok info
                | .ok (some r) => .ok (info ++ [r])
          (rest.foldl step (.ok [])).map pySet

/-- The plan assembled for tier-1 projects by
sync_slurm_tier1_projects.py `main` (lines 183-200), restricted to the
QoS and project-account segments: QoS commands first, project-account
commands second.  (The script passes no protected-accounts argument;
the protected list is a parameter here.) -/
def tier1_project_plan (projects : List Project)
    (slurm_qos_info : List SlurmQos)
    (slurm_account_info : List SlurmAccount)
    (clusters protected_accounts : List String) : List Cmd :=
  slurm_project_qos projects slurm_qos_info clusters
  ++ slurm_project_accounts projects slurm_account_info clusters
      protected_accounts

/-! ## Per-key command characterisations

Each loop of the license reconcilers emits, for one key, the commands
below; the lemmas later identify the loops with `flatMap` over these
per-key functions.  They are proof devices, not separate source
translations. -/

/-- The commands the new-resource loop emits for one key. -/
def licNewEmit (licenses : List (String × License)) (clusters : List String)
    (name : String) : List Cmd :=
  match dictFind licenses name with
  | some lic => [create_add_resource_license_command lic.name lic.ext_server
      lic.ltype clusters lic.count]
  | none => []

/-- The commands the update-resource loop emits for one key. -/
def licUpdateEmit (licenses : List (String × License))
    (info : List (String × SlurmResource)) (force_update : Bool)
    (name : String) : List Cmd :=
  match dictFind licenses name, dictFind info name with
  | some lic, some inf =>
      if force_update ∨ lic.count ≠ inf.Count then
        [create_modify_resource_license_command lic.name lic.ext_server
          lic.ltype lic.count]
      else []
  | _, _ => []

/-- The commands the resource-cleanup loop emits for one key. -/
def licRemoveEmit (info : List (String × SlurmResource)) (name : String) :
    List Cmd :=
  match dictFind info name with
  | some lic => [create_remove_resource_license_command lic.Name lic.Server
      lic.ServerType]
  | none => []

/-- The commands the new-reservation loop emits for one key. -/
def resNewEmit (rlicenses : List (String × License)) (partition : String)
    (res : String) : List Cmd :=
  match dictFind rlicenses res with
  | some lic => [create_create_license_reservation lic.fullname lic.in_use
      partition]
  | none => []

/-- The recomputed reservation quantity of the update-reservation loop
(sync_slurm_external_licenses.py lines 325-332). -/
def resUpdateValue (lic : License) (slic : SlurmLicense) : Int :=
  if slic.Used > lic.in_use then 0 else lic.in_use - slic.Used

/-- The commands the update-reservation loop emits for one key. -/
def resUpdateEmit (rlicenses : List (String × License))
    (lics : List (String × SlurmLicense)) (force_update : Bool)
    (res : String) : List Cmd :=
  match dictFind rlicenses res, dictFind lics res with
  | some lic, some slic =>
      if force_update ∨ resUpdateValue lic slic ≠ slic.Reserved then
        [create_update_license_reservation lic.fullname
          (resUpdateValue lic slic)]
      else []
  | _, _ => []

/-- The log events the update-reservation loop emits for one key. -/
def resUpdateLogOf (rlicenses : List (String × License))
    (lics : List (String × SlurmLicense)) (res : String) : List LogEvent :=
  match dictFind rlicenses res, dictFind lics res with
  | some lic, some slic =>
      (LogLevel.debug, "Command to update license reservation %s")
        :: (if slic.Used > lic.in_use then [(LogLevel.debug, clampDebugTag)]
            else [])
  | _, _ => []

/-- Every occurrence of `x` in `l` comes strictly before every
occurrence of `y`. -/
def precedes {α : Type} (x y : α) (l : List α) : Prop :=
  ∀ i j (hi : i < l.length) (hj : j < l.length),
    l.get ⟨i, hi⟩ = x → l.get ⟨j, hj⟩ = y → i < j

/-! ## Generic lemmas about the Python collection helpers -/

theorem mem_pySet {α : Type} [DecidableEq α] {a : α} {l : List α} :
    a ∈ pySet l ↔ a ∈ l := List.mem_dedup

theorem nodup_pySet {α : Type} [DecidableEq α] (l : List α) :
    (pySet l).Nodup := List.nodup_dedup l

theorem mem_pyDiff {α : Type} [DecidableEq α] {a : α} {l b : List α} :
    a ∈ pyDiff l b ↔ a ∈ l ∧ ¬ a ∈ b := by
  simp [pyDiff, pySet, List.mem_filter]

theorem nodup_pyDiff {α : Type} [DecidableEq α] (l b : List α) :
    (pyDiff l b).Nodup := (nodup_pySet l).filter _

theorem mem_pyInter {α : Type} [DecidableEq α] {a : α} {l b : List α} :
    a ∈ pyInter l b ↔ a ∈ l ∧ a ∈ b := by
  simp [pyInter, pySet, List.mem_filter]

theorem nodup_pyInter {α : Type} [DecidableEq α] (l b : List α) :
    (pyInter l b).Nodup := (nodup_pySet l).filter _

theorem mem_pyUnion {α : Type} [DecidableEq α] {a : α} {l b : List α} :
    a ∈ pyUnion l b ↔ a ∈ l ∨ a ∈ b := by
  simp [pyUnion, pySet, List.mem_filter, List.mem_append]
  tauto

theorem mem_pySorted {a : String} {l : List String} :
    a ∈ pySorted l ↔ a ∈ l := List.mem_insertionSort _

theorem nodup_pySorted {l : List String} (h : l.Nodup) :
    (pySorted l).Nodup := ((List.perm_insertionSort _ l).nodup_iff).mpr h

/-- Left cancellation for string append, used for injectivity of the
command builders. -/
theorem str_append_left_cancel {s a b : String} (h : s ++ a = s ++ b) :
    a = b := by
  have h2 : (s ++ a).data = (s ++ b).data := congrArg String.data h
  simp only [String.data_append] at h2
  exact String.ext (List.append_cancel_left h2)

/-- Membership in a dict built by repeated insertion. -/
theorem dictFind_dictInsert_self {α : Type} (d : List (String × α))
    (k : String) (v : α) : dictFind (dictInsert d k v) k = some v := by
  induction d with
  | nil => simp [dictInsert, dictFind]
  | cons hd tl ih =>
      by_cases h : hd.1 = k
      · simp [dictInsert, dictFind, h]
      · simp [dictInsert, dictFind, h, ih]

theorem dictFind_dictInsert_ne {α : Type} (d : List (String × α))
    (k k0 : String) (v : α) (h : k0 ≠ k) :
    dictFind (dictInsert d k v) k0 = dictFind d k0 := by
  induction d with
  | nil => simp [dictInsert, dictFind, Ne.symm h]
  | cons hd tl ih =>
      by_cases h1 : hd.1 = k
      · subst h1
        simp [dictInsert, dictFind, Ne.symm h]
      · by_cases h2 : hd.1 = k0
        · simp [dictInsert, dictFind, h1, h2, h]
        · simp [dictInsert, dictFind, h1, h2, ih]

/-! ## Lemmas about the command builders -/

theorem precedes_of_split {α : Type} (x y : α) (l1 l2 : List α)
    (hx : ¬ x ∈ l2) (hy : ¬ y ∈ l1) : precedes x y (l1 ++ l2) := by
  intro i j hi hj hxi hyj
  have hiL : i < l1.length := by
    by_contra hge
    push_neg at hge
    rw [List.get_eq_getElem, List.getElem_append_right hge] at hxi
    exact hx (hxi ▸ List.getElem_mem _)
  have hjR : l1.length ≤ j := by
    by_contra hlt
    push_neg at hlt
    rw [List.get_eq_getElem, List.getElem_append_left hlt] at hyj
    exact hy (hyj ▸ List.getElem_mem _)
  omega

/-- The account and cluster of an add-account command determine each
other across builder applications. -/
theorem add_account_cmd_inj {a1 a2 c1 c2 : String} {p1 p2 : Option String}
    {o1 o2 : Institute} {f1 f2 : Option Int} {q1 q2 : Option String}
    (h : create_add_account_command a1 p1 o1 c1 f1 q1
      = create_add_account_command a2 p2 o2 c2 f2 q2) :
    a1 = a2 ∧ c1 = c2 := by
  simp only [create_add_account_command, List.cons_append, List.nil_append,
    List.cons.injEq] at h
  obtain ⟨-, -, -, -, ha, -, -, hc, -⟩ := h
  exact ⟨ha, str_append_left_cancel hc⟩

theorem change_fairshare_cmd_inj {a1 a2 c1 c2 : String} {f1 f2 : Int}
    (h : create_change_account_fairshare_command a1 c1 f1
      = create_change_account_fairshare_command a2 c2 f2) :
    a1 = a2 ∧ c1 = c2 := by
  simp only [create_change_account_fairshare_command, List.cons.injEq] at h
  obtain ⟨-, -, -, -, ha, hc, -⟩ := h
  exact ⟨str_append_left_cancel ha, str_append_left_cancel hc⟩

theorem add_account_ne_change_fairshare {a1 a2 c1 c2 : String}
    {p1 : Option String} {o1 : Institute} {f1 : Option Int}
    {q1 : Option String} {f2 : Int} :
    create_add_account_command a1 p1 o1 c1 f1 q1
      ≠ create_change_account_fairshare_command a2 c2 f2 := by
  intro h
  simp only [create_add_account_command,
    create_change_account_fairshare_command, List.cons_append,
    List.nil_append, List.cons.injEq] at h
  obtain ⟨-, -, hbad, -⟩ := h
  exact absurd hbad (by decide)

/-- Every command emitted by the per-VO block of `slurm_vo_accounts`
is that VO's add-account or fairshare-modify command. -/
theorem mem_voAccountCmds {cmd : Cmd} {ca : List (String × Int)}
    {defaults : List String} {c : String} {vo : VirtualOrg}
    (h : cmd ∈ voAccountCmds ca defaults c vo) :
    cmd = create_add_account_command vo.vsc_id (some vo.institute.instName)
        vo.institute c (some vo.fairshare) none
    ∨ cmd = create_change_account_fairshare_command vo.vsc_id c
        vo.fairshare := by
  simp only [voAccountCmds] at h
  split at h
  · simp at h
  · split at h
    · left
      simpa using h
    · split at h
      · right
        simpa using h
      · simp at h

/-- Every command of `slurm_vo_accounts` for one cluster comes from
some VO's block. -/
theorem mem_slurmVoAccountsCluster {cmd : Cmd} {vos : List VirtualOrg}
    {accts : List SlurmAccount} {defaults : List String} {c : String}
    (h : cmd ∈ slurmVoAccountsCluster vos accts defaults c) :
    ∃ vo ∈ vos,
      cmd ∈ voAccountCmds (get_cluster_accounts accts c) defaults c vo := by
  simp only [slurmVoAccountsCluster, List.mem_flatten] at h
  rcases h with ⟨blk, hblk, hcmd⟩
  rcases List.mem_map.mp hblk with ⟨vo, hvo, rfl⟩
  exact ⟨vo, hvo, hcmd⟩

/-! ## Claim C10: the `default_account` parameter of
`create_add_user_command` acts only as a non-None flag -/

/-- C10: for every user, account and cluster,
`create_add_user_command` returns the identical argument vector for
every non-None value of its `default_account` parameter, that vector
ends with `DefaultAccount=<account>` built from the `account`
parameter, and the value of `default_account` never influences the
command. -/
theorem claim_C10_add_user_default_account_flag
    (user account cluster d1 d2 : String) :
    create_add_user_command user account cluster (some d1)
      = create_add_user_command user account cluster (some d2)
    ∧ create_add_user_command user account cluster (some d1)
      = [SLURM_SACCT_MGR, "-i", "add", "user", user,
         "Account=" ++ account, "Cluster=" ++ cluster,
         "DefaultAccount=" ++ account] :=
  ⟨rfl, rfl⟩

/-! ## Claim C9: settings tokens of `create_modify_qos_command`

The claim says the caller-supplied settings appear sorted by key.  The
source iterates `settings.items()`, i.e. dict insertion order, so the
claim fails on any settings dict whose insertion order is not
sorted. -/

/-- C9 counterexample: for the settings dict with keys inserted in the
order `b`, `a`, the builder emits `b=1` before `a=2` — not sorted by
key as the claim states (the sorted rendering is what `settingsArgs`
produces). -/
theorem claim_C9_counterexample :
    create_modify_qos_command "q" [("b", "1"), ("a", "2")]
      = [SLURM_SACCT_MGR, "-i", "modify", "qos", "q", "set",
         "flags=NoDecay,DenyOnLimit", "b=1", "a=2"]
    ∧ create_modify_qos_command "q" [("b", "1"), ("a", "2")]
      ≠ [SLURM_SACCT_MGR, "-i", "modify", "qos", "q", "set",
         "flags=NoDecay,DenyOnLimit"]
        ++ settingsArgs [("b", "1"), ("a", "2")] := by
  constructor
  · rfl
  · decide

/-- C9 amended: the QoS modification command always contains the guard
token `flags=NoDecay,DenyOnLimit` and exactly one `key=value` token per
settings entry, with the settings tokens appearing in dict insertion
order (not sorted by key).  The hypotheses express that the rendered
tokens are pairwise distinct and do not collide with the fixed prefix
tokens, which holds for every real settings dict. -/
theorem claim_C9_amended_modify_qos_tokens (name : String)
    (settings : Settings)
    (hnd : (settings.map (fun kv => kv.1 ++ "=" ++ kv.2)).Nodup)
    (hpre : ∀ kv ∈ settings,
      ¬ kv.1 ++ "=" ++ kv.2 ∈
        [SLURM_SACCT_MGR, "-i", "modify", "qos", name, "set",
         "flags=NoDecay,DenyOnLimit"]) :
    "flags=NoDecay,DenyOnLimit" ∈ create_modify_qos_command name settings
    ∧ (∀ kv ∈ settings,
        (create_modify_qos_command name settings).count
          (kv.1 ++ "=" ++ kv.2) = 1)
    ∧ (create_modify_qos_command name settings).drop 7
        = settings.map (fun kv => kv.1 ++ "=" ++ kv.2) := by
  refine ⟨?_, ?_, ?_⟩
  · simp [create_modify_qos_command]
  · intro kv hkv
    have hmem : kv.1 ++ "=" ++ kv.2
        ∈ settings.map (fun kv => kv.1 ++ "=" ++ kv.2) :=
      List.mem_map_of_mem _ hkv
    have h1 : (settings.map (fun kv => kv.1 ++ "=" ++ kv.2)).count
        (kv.1 ++ "=" ++ kv.2) = 1 :=
      List.count_eq_one_of_mem hnd hmem
    have h0 : ([SLURM_SACCT_MGR, "-i", "modify", "qos", name, "set",
        "flags=NoDecay,DenyOnLimit"] : List String).count
        (kv.1 ++ "=" ++ kv.2) = 0 :=
      List.count_eq_zero.mpr (hpre kv hkv)
    have : create_modify_qos_command name settings
        = [SLURM_SACCT_MGR, "-i", "modify", "qos", name, "set",
           "flags=NoDecay,DenyOnLimit"]
          ++ settings.map (fun kv => kv.1 ++ "=" ++ kv.2) := rfl
    rw [this, List.count_append, h0, h1]
  · rfl

/-- C9 amended witness: the amended theorem applied at the
counterexample input. -/
theorem claim_C9_amended_witness :
    "flags=NoDecay,DenyOnLimit"
      ∈ create_modify_qos_command "q" [("b", "1"), ("a", "2")]
    ∧ (∀ kv ∈ ([("b", "1"), ("a", "2")] : Settings),
        (create_modify_qos_command "q" [("b", "1"), ("a", "2")]).count
          (kv.1 ++ "=" ++ kv.2) = 1)
    ∧ (create_modify_qos_command "q" [("b", "1"), ("a", "2")]).drop 7
        = ([("b", "1"), ("a", "2")] : Settings).map
            (fun kv => kv.1 ++ "=" ++ kv.2) :=
  claim_C9_amended_modify_qos_tokens "q" [("b", "1"), ("a", "2")]
    (by decide) (by decide)

/-! ## Claim C7: a single malformed dump line

The claim (and spec sections 4.1 and 7) says a line whose split does
not match the header arity is logged and dropped, with parsing
continuing for the remaining lines.  The `except` handler in
`parse_slurm_sacct_dump` (sacctmgr.py lines 170-172) logs and then
RE-RAISES, so the exception aborts the whole invocation; the comment
right below it ("We should them just skip that line instead of raising
an exception") records the intended skip behaviour. -/

/-- C7: evaluating the embedded `parse_slurm_sacct_dump` at the
failing input: an accounts dump with one malformed (too short) line
aborts with the `IndexError` of `fields[user_field_number]` instead of
dropping the line, while the same dump without the malformed line
parses fine — so a single malformed line IS fatal to the whole
invocation, contradicting the claim. -/
theorem claim_C7_malformed_line_is_fatal :
    parse_slurm_sacct_dump
      ["Account|Descr|Org|Cluster|ParentName|User|Share",
       "bad", "acct1|d|o|c1|root||1"] SacctMgrTypes.accounts []
      = .error "IndexError"
    ∧ parse_slurm_sacct_dump
      ["Account|Descr|Org|Cluster|ParentName|User|Share",
       "acct1|d|o|c1|root||1"] SacctMgrTypes.accounts []
      = .ok [[("Account", "acct1"), ("Descr", "d"), ("Org", "o"),
              ("Cluster", "c1"), ("ParentName", "root"), ("User", ""),
              ("Share", "1")]] :=
  ⟨rfl, rfl⟩

/-! ## Claim C4: idempotence of the reconcilers on a converged snapshot

`slurm_project_qos` appends a modify-QOS command for every desired
project unconditionally (sync.py line 566), so its plan is never empty
on a non-empty project list, even when the observed snapshot equals
the desired state. -/

/-- C4 counterexample: a converged snapshot — the desired project `p`
on cluster `c` with its QOS `c-p` already present and already carrying
exactly the desired usage-budget settings — still produces a
(non-empty) plan: the unconditional modify command. -/
theorem claim_C4_counterexample :
    slurm_project_qos [⟨"p", 1, 0⟩]
      [⟨"c-p", "cpu=60,gres/gpu=1"⟩] ["c"]
      = [create_modify_qos_command "c-p"
          [("GRPTRESMins", "cpu=60,gres/gpu=1")]]
    ∧ slurm_project_qos [⟨"p", 1, 0⟩]
      [⟨"c-p", "cpu=60,gres/gpu=1"⟩] ["c"] ≠ [] := by decide


/-! ## Claim C5: VO account reconciliation -/

/-- When a target command can only arise from the block of cluster `c`
and VO `vo`, its count in the whole `slurm_vo_accounts` output is its
count in that one block. -/
theorem voOut_count (vos : List VirtualOrg) (accts : List SlurmAccount)
    (clusters defaults : List String) (vo : VirtualOrg) (c : String)
    (t : Cmd) (hclusters : clusters.Nodup)
    (hids : (vos.map VirtualOrg.vsc_id).Nodup)
    (hc : c ∈ clusters) (hvo : vo ∈ vos)
    (hshape : ∀ c2 ∈ clusters, ∀ vo2 ∈ vos,
      t ∈ voAccountCmds (get_cluster_accounts accts c2) defaults c2 vo2 →
      c2 = c ∧ vo2.vsc_id = vo.vsc_id) :
    (slurm_vo_accounts vos accts clusters defaults).count t
      = (voAccountCmds (get_cluster_accounts accts c) defaults c vo).count
          t := by
  obtain ⟨l1, l2, rfl⟩ := List.append_of_mem hc
  have hfacts := hclusters
  rw [List.nodup_append] at hfacts
  obtain ⟨-, hn2, hdisj⟩ := hfacts
  have hcl1 : ¬ c ∈ l1 := fun hmem => hdisj hmem (List.mem_cons_self c l2)
  simp only [slurm_vo_accounts, List.map_append, List.map_cons,
    List.flatten_append, List.flatten_cons, List.count_append]
  have hz1 : ((l1.map
      (slurmVoAccountsCluster vos accts defaults)).flatten).count t = 0 := by
    apply List.count_eq_zero.mpr
    intro hmem
    rw [List.mem_flatten] at hmem
    obtain ⟨seg, hseg, hts⟩ := hmem
    obtain ⟨c2, hc2, rfl⟩ := List.mem_map.mp hseg
    obtain ⟨vo2, hvo2, htb⟩ := mem_slurmVoAccountsCluster hts
    have hceq := (hshape c2 (List.mem_append.mpr (Or.inl hc2)) vo2 hvo2
      htb).1
    exact hcl1 (hceq ▸ hc2)
  have hz2 : ((l2.map
      (slurmVoAccountsCluster vos accts defaults)).flatten).count t = 0 := by
    apply List.count_eq_zero.mpr
    intro hmem
    rw [List.mem_flatten] at hmem
    obtain ⟨seg, hseg, hts⟩ := hmem
    obtain ⟨c2, hc2, rfl⟩ := List.mem_map.mp hseg
    obtain ⟨vo2, hvo2, htb⟩ := mem_slurmVoAccountsCluster hts
    have hceq := (hshape c2
      (List.mem_append.mpr (Or.inr (List.mem_cons_of_mem _ hc2))) vo2 hvo2
      htb).1
    exact (List.nodup_cons.mp hn2).1 (hceq ▸ hc2)
  rw [hz1, hz2]
  obtain ⟨v1, v2, rfl⟩ := List.append_of_mem hvo
  have hids2 := hids
  rw [List.map_append, List.map_cons, List.nodup_append] at hids2
  obtain ⟨-, hi2, hidisj⟩ := hids2
  have hvid1 : ∀ vo2 ∈ v1, vo2.vsc_id ≠ vo.vsc_id := by
    intro vo2 hm heq
    exact hidisj (List.mem_map_of_mem _ hm)
      (by simp [heq])
  have hvid2 : ∀ vo2 ∈ v2, vo2.vsc_id ≠ vo.vsc_id := by
    intro vo2 hm heq
    exact (List.nodup_cons.mp hi2).1 (heq ▸ List.mem_map_of_mem _ hm)
  simp only [slurmVoAccountsCluster, List.map_append, List.map_cons,
    List.flatten_append, List.flatten_cons, List.count_append]
  have hz3 : ((v1.map (voAccountCmds (get_cluster_accounts accts c)
      defaults c)).flatten).count t = 0 := by
    apply List.count_eq_zero.mpr
    intro hmem
    rw [List.mem_flatten] at hmem
    obtain ⟨blk, hblk, htb⟩ := hmem
    obtain ⟨vo2, hvo2, rfl⟩ := List.mem_map.mp hblk
    have := (hshape c hc vo2
      (List.mem_append.mpr (Or.inl hvo2)) htb).2
    exact hvid1 vo2 hvo2 this
  have hz4 : ((v2.map (voAccountCmds (get_cluster_accounts accts c)
      defaults c)).flatten).count t = 0 := by
    apply List.count_eq_zero.mpr
    intro hmem
    rw [List.mem_flatten] at hmem
    obtain ⟨blk, hblk, htb⟩ := hmem
    obtain ⟨vo2, hvo2, rfl⟩ := List.mem_map.mp hblk
    have := (hshape c hc vo2
      (List.mem_append.mpr (Or.inr (List.mem_cons_of_mem _ hvo2))) htb).2
    exact hvid2 vo2 hvo2 this
  rw [hz3, hz4]
  omega

/-- C5: for a desired VO that is not an institute-default VO, on a
cluster of the (duplicate-free) cluster list: a missing account yields
exactly one add-account command carrying the VO's fairshare and parent
institute and no fairshare-modify command; an account present with a
different fairshare yields exactly one fairshare-modify command and no
add command; and the reconciler never emits anything but add-account
and fairshare-modify commands, so a VO account absent from the desired
set never yields a removal command. -/
theorem claim_C5_vo_account_reconciliation (vos : List VirtualOrg)
    (accts : List SlurmAccount)
    (clusters institute_default_vos : List String) (vo : VirtualOrg)
    (c : String) (hclusters : clusters.Nodup)
    (hids : (vos.map VirtualOrg.vsc_id).Nodup)
    (hc : c ∈ clusters) (hvo : vo ∈ vos)
    (hnd : ¬ vo.vsc_id ∈ institute_default_vos) :
    (dictFind (get_cluster_accounts accts c) vo.vsc_id = none →
      (slurm_vo_accounts vos accts clusters institute_default_vos).count
        (create_add_account_command vo.vsc_id (some vo.institute.instName)
          vo.institute c (some vo.fairshare) none) = 1
      ∧ (slurm_vo_accounts vos accts clusters institute_default_vos).count
          (create_change_account_fairshare_command vo.vsc_id c
            vo.fairshare) = 0)
    ∧ (∀ share : Int,
        dictFind (get_cluster_accounts accts c) vo.vsc_id = some share →
        vo.fairshare ≠ share →
        (slurm_vo_accounts vos accts clusters institute_default_vos).count
          (create_change_account_fairshare_command vo.vsc_id c
            vo.fairshare) = 1
        ∧ (slurm_vo_accounts vos accts clusters institute_default_vos).count
            (create_add_account_command vo.vsc_id
              (some vo.institute.instName) vo.institute c
              (some vo.fairshare) none) = 0)
    ∧ (∀ cmd ∈ slurm_vo_accounts vos accts clusters institute_default_vos,
        ∃ vo2 ∈ vos, ∃ c2 ∈ clusters,
          cmd = create_add_account_command vo2.vsc_id
              (some vo2.institute.instName) vo2.institute c2
              (some vo2.fairshare) none
          ∨ cmd = create_change_account_fairshare_command vo2.vsc_id c2
              vo2.fairshare) := by
  have hshapeAdd : ∀ c2 ∈ clusters, ∀ vo2 ∈ vos,
      create_add_account_command vo.vsc_id (some vo.institute.instName)
        vo.institute c (some vo.fairshare) none
        ∈ voAccountCmds (get_cluster_accounts accts c2)
          institute_default_vos c2 vo2 →
      c2 = c ∧ vo2.vsc_id = vo.vsc_id := by
    intro c2 _ vo2 _ htb
    rcases mem_voAccountCmds htb with heq | heq
    · obtain ⟨ha, hcq⟩ := add_account_cmd_inj heq
      exact ⟨hcq.symm, ha.symm⟩
    · exact absurd heq add_account_ne_change_fairshare
  have hshapeMod : ∀ c2 ∈ clusters, ∀ vo2 ∈ vos,
      create_change_account_fairshare_command vo.vsc_id c vo.fairshare
        ∈ voAccountCmds (get_cluster_accounts accts c2)
          institute_default_vos c2 vo2 →
      c2 = c ∧ vo2.vsc_id = vo.vsc_id := by
    intro c2 _ vo2 _ htb
    rcases mem_voAccountCmds htb with heq | heq
    · exact absurd heq.symm add_account_ne_change_fairshare
    · obtain ⟨ha, hcq⟩ := change_fairshare_cmd_inj heq
      exact ⟨hcq.symm, ha.symm⟩
  refine ⟨?_, ?_, ?_⟩
  · intro hnone
    have hblk : voAccountCmds (get_cluster_accounts accts c)
        institute_default_vos c vo
        = [create_add_account_command vo.vsc_id
            (some vo.institute.instName) vo.institute c (some vo.fairshare)
            none] := by
      simp [voAccountCmds, hnd, hnone]
    constructor
    · rw [voOut_count vos accts clusters institute_default_vos vo c _
        hclusters hids hc hvo hshapeAdd, hblk]
      exact List.count_singleton_self _
    · rw [voOut_count vos accts clusters institute_default_vos vo c _
        hclusters hids hc hvo hshapeMod, hblk]
      apply List.count_eq_zero.mpr
      intro hmem
      rw [List.mem_singleton] at hmem
      exact add_account_ne_change_fairshare hmem.symm
  · intro share hsome hne
    have hblk : voAccountCmds (get_cluster_accounts accts c)
        institute_default_vos c vo
        = [create_change_account_fairshare_command vo.vsc_id c
            vo.fairshare] := by
      simp [voAccountCmds, hnd, hsome, hne]
    constructor
    · rw [voOut_count vos accts clusters institute_default_vos vo c _
        hclusters hids hc hvo hshapeMod, hblk]
      exact List.count_singleton_self _
    · rw [voOut_count vos accts clusters institute_default_vos vo c _
        hclusters hids hc hvo hshapeAdd, hblk]
      apply List.count_eq_zero.mpr
      intro hmem
      rw [List.mem_singleton] at hmem
      exact add_account_ne_change_fairshare hmem
  · intro cmd hcmd
    simp only [slurm_vo_accounts, List.mem_flatten] at hcmd
    obtain ⟨seg, hseg, hts⟩ := hcmd
    obtain ⟨c2, hc2, rfl⟩ := List.mem_map.mp hseg
    obtain ⟨vo2, hvo2, htb⟩ := mem_slurmVoAccountsCluster hts
    exact ⟨vo2, hvo2, c2, hc2, mem_voAccountCmds htb⟩

/-- C5 witness: the spec's example — desired VO `gvo00002` with
fairshare 20, empty observed accounts on cluster `mycluster`. -/
theorem claim_C5_witness :
    (dictFind (get_cluster_accounts [] "mycluster") "gvo00002" = none →
      (slurm_vo_accounts [⟨"gvo00002", Institute.gent, 20⟩] [] ["mycluster"]
        []).count
        (create_add_account_command "gvo00002" (some "gent") Institute.gent
          "mycluster" (some 20) none) = 1
      ∧ (slurm_vo_accounts [⟨"gvo00002", Institute.gent, 20⟩] []
          ["mycluster"] []).count
          (create_change_account_fairshare_command "gvo00002" "mycluster"
            20) = 0)
    ∧ (∀ share : Int,
        dictFind (get_cluster_accounts [] "mycluster") "gvo00002"
          = some share →
        (20 : Int) ≠ share →
        (slurm_vo_accounts [⟨"gvo00002", Institute.gent, 20⟩] []
          ["mycluster"] []).count
          (create_change_account_fairshare_command "gvo00002" "mycluster"
            20) = 1
        ∧ (slurm_vo_accounts [⟨"gvo00002", Institute.gent, 20⟩] []
            ["mycluster"] []).count
            (create_add_account_command "gvo00002" (some "gent")
              Institute.gent "mycluster" (some 20) none) = 0)
    ∧ (∀ cmd ∈ slurm_vo_accounts [⟨"gvo00002", Institute.gent, 20⟩] []
        ["mycluster"] [],
        ∃ vo2 ∈ [(⟨"gvo00002", Institute.gent, 20⟩ : VirtualOrg)],
          ∃ c2 ∈ ["mycluster"],
          cmd = create_add_account_command vo2.vsc_id
              (some vo2.institute.instName) vo2.institute c2
              (some vo2.fairshare) none
          ∨ cmd = create_change_account_fairshare_command vo2.vsc_id c2
              vo2.fairshare) :=
  claim_C5_vo_account_reconciliation
    [⟨"gvo00002", Institute.gent, 20⟩] [] ["mycluster"] []
    ⟨"gvo00002", Institute.gent, 20⟩ "mycluster"
    (by decide) (by decide) (by decide) (by decide) (by decide)

/-! ## Claim C3: license reservation arithmetic -/

/-- When every key of the update list resolves in both dicts, the
update-reservation loop is the concatenation of its per-key commands
and log events. -/
theorem resUpdateCmds_eq (rl : List (String × License))
    (lics : List (String × SlurmLicense)) (force : Bool)
    (update : List String)
    (h : ∀ r ∈ update, (dictFind rl r).isSome ∧ (dictFind lics r).isSome) :
    resUpdateCmds rl lics force update
      = .ok (update.flatMap (resUpdateEmit rl lics force),
             update.flatMap (resUpdateLogOf rl lics)) := by
  induction update with
  | nil => rfl
  | cons res rest ih =>
      obtain ⟨h1, h2⟩ := h res (List.mem_cons_self res rest)
      obtain ⟨lic, hlic⟩ := Option.isSome_iff_exists.mp h1
      obtain ⟨slic, hslic⟩ := Option.isSome_iff_exists.mp h2
      have ihh := ih (fun r hr => h r (List.mem_cons_of_mem _ hr))
      simp only [resUpdateCmds, hlic, hslic, ihh, List.flatMap_cons,
        resUpdateEmit, resUpdateLogOf, resUpdateValue]
      rfl

/-- The license name of an update-reservation command determines the
license name it was built from. -/
theorem update_reservation_cmd_name_inj {n1 n2 : String} {v1 v2 : Int}
    (h : create_update_license_reservation n1 v1
      = create_update_license_reservation n2 v2) : n1 = n2 := by
  simp only [create_update_license_reservation, create_update_reservation,
    make_license_reservation_name, licenseReservationNamePre, settingsArgs,
    dictKeys, pySorted, List.map_cons, List.map_nil, List.insertionSort,
    List.orderedInsert, dictFind, if_pos, Option.getD_some,
    List.cons.injEq, List.cons_append, List.nil_append] at h
  obtain ⟨-, -, -, hname, -⟩ := h
  exact str_append_left_cancel (str_append_left_cancel hname)

/-- C3 amended: for an existing reservation in the update set, the
recomputed quantity is `in_use - used` when `used ≤ in_use` and `0`
(with a DEBUG message, not a warning, logged) when `used > in_use` —
never negative — and the update command is emitted if and only if the
recomputed quantity differs from the reservation's current `Reserved`
value or the force-update flag is set. -/
theorem claim_C3_amended_reservation_arithmetic
    (rl : List (String × License)) (lics : List (String × SlurmLicense))
    (force : Bool) (update : List String) (res : String) (lic : License)
    (slic : SlurmLicense) (cmds : List Cmd) (logs : List LogEvent)
    (hall : ∀ r ∈ update, (dictFind rl r).isSome ∧ (dictFind lics r).isSome)
    (hres : res ∈ update)
    (hlic : dictFind rl res = some lic)
    (hslic : dictFind lics res = some slic)
    (hinj : ∀ r ∈ update, r ≠ res → ∀ lic2 : License,
      dictFind rl r = some lic2 → lic2.fullname ≠ lic.fullname)
    (hrun : resUpdateCmds rl lics force update = .ok (cmds, logs)) :
    (slic.Used ≤ lic.in_use →
      resUpdateValue lic slic = lic.in_use - slic.Used)
    ∧ (slic.Used > lic.in_use →
        resUpdateValue lic slic = 0
        ∧ (LogLevel.debug, clampDebugTag) ∈ logs)
    ∧ 0 ≤ resUpdateValue lic slic
    ∧ (create_update_license_reservation lic.fullname
        (resUpdateValue lic slic) ∈ cmds
        ↔ (force = true ∨ resUpdateValue lic slic ≠ slic.Reserved)) := by
  rw [resUpdateCmds_eq rl lics force update hall] at hrun
  have hcmds : cmds = update.flatMap (resUpdateEmit rl lics force) := by
    have := congrArg (fun e => match e with
      | Except.ok p => p.1
      | Except.error _ => []) hrun
    simpa using this.symm
  have hlogs : logs = update.flatMap (resUpdateLogOf rl lics) := by
    have := congrArg (fun e => match e with
      | Except.ok p => p.2
      | Except.error _ => []) hrun
    simpa using this.symm
  subst hcmds
  subst hlogs
  refine ⟨?_, ?_, ?_, ?_, ?_⟩
  · intro h
    simp [resUpdateValue, not_lt.mpr h]
  · intro h
    refine ⟨by simp [resUpdateValue, h], ?_⟩
    apply List.mem_flatMap.mpr
    refine ⟨res, hres, ?_⟩
    simp [resUpdateLogOf, hlic, hslic, h]
  · by_cases h : slic.Used > lic.in_use
    · simp [resUpdateValue, h]
    · simp only [resUpdateValue, if_neg h]
      omega
  · intro hmem
    rcases List.mem_flatMap.mp hmem with ⟨r, hr, hmemr⟩
    by_cases hreq : r = res
    · subst hreq
      simp only [resUpdateEmit, hlic, hslic] at hmemr
      by_cases hcond : force = true
        ∨ resUpdateValue lic slic ≠ slic.Reserved
      · exact hcond
      · rw [if_neg ?_] at hmemr
        · simp at hmemr
        · push_neg at hcond
          simp [hcond.1, hcond.2]
    · obtain ⟨hr1, hr2⟩ := hall r hr
      obtain ⟨lic2, hlic2⟩ := Option.isSome_iff_exists.mp hr1
      obtain ⟨slic2, hslic2⟩ := Option.isSome_iff_exists.mp hr2
      simp only [resUpdateEmit, hlic2, hslic2] at hmemr
      have hfull : lic2.fullname = lic.fullname := by
        split at hmemr
        · rw [List.mem_singleton] at hmemr
          exact (update_reservation_cmd_name_inj hmemr).symm
        · simp at hmemr
      exact absurd hfull (hinj r hr hreq lic2 hlic2)
  · intro hcond
    apply List.mem_flatMap.mpr
    refine ⟨res, hres, ?_⟩
    have hc2 : force = true ∨ ¬ resUpdateValue lic slic = slic.Reserved :=
      hcond
    simp [resUpdateEmit, hlic, hslic, hc2]

/-- C3 counterexample: for the concrete reservation state `used = 5`,
`in_use = 3`, `Reserved = 2`, the full `update_license_reservations`
clamps the recomputed quantity to 0 and emits the update command, but
logs the clamp at DEBUG level — no warning-level event appears in the
whole trace, contradicting the claim's "with a warning logged". -/
theorem claim_C3_counterexample :
    (update_license_reservations
      [("lic1@srv", ⟨"lic1", "srv", "flexlm", 10, 3, false, ""⟩)]
      "c" "p" [] false "c" ["p"]
      [("lic1@srv", ⟨"lic1@srv", 10, 5, 5, 2⟩)]
      [("external_license_lic1@srv",
        ⟨"external_license_lic1@srv", some "lic1@srv:2"⟩)]
      = .ok
        ([create_update_license_reservation "lic1@srv" 0],
         [],
         [(LogLevel.debug, "Existing licenses %s"),
          (LogLevel.debug, "Existing license reservations %s"),
          (LogLevel.debug, "Command to update license reservation %s"),
          (LogLevel.debug, clampDebugTag)]))
    ∧ ∀ e ∈ [(LogLevel.debug, "Existing licenses %s"),
          (LogLevel.debug, "Existing license reservations %s"),
          (LogLevel.debug, "Command to update license reservation %s"),
          (LogLevel.debug, clampDebugTag)],
        e.1 ≠ LogLevel.warning := by
  constructor
  · rfl
  · decide

/-- C3 amended witness: the amended theorem at the counterexample
state (`used = 5`, `in_use = 3`, `Reserved = 2`), plus the claim's
second example (`used = 2`, `in_use = 7` recomputes to 5) checked on
`resUpdateValue` directly. -/
theorem claim_C3_amended_witness :
    (((5 : Int) ≤ (3 : Int) →
      resUpdateValue ⟨"lic1", "srv", "flexlm", 10, 3, false, "lic1@srv"⟩
        ⟨"lic1@srv", 10, 5, 5, 2⟩ = 3 - 5)
    ∧ ((5 : Int) > (3 : Int) →
        resUpdateValue ⟨"lic1", "srv", "flexlm", 10, 3, false, "lic1@srv"⟩
          ⟨"lic1@srv", 10, 5, 5, 2⟩ = 0
        ∧ (LogLevel.debug, clampDebugTag)
            ∈ [(LogLevel.debug, "Command to update license reservation %s"),
               (LogLevel.debug, clampDebugTag)])
    ∧ (0 : Int) ≤ resUpdateValue
        ⟨"lic1", "srv", "flexlm", 10, 3, false, "lic1@srv"⟩
        ⟨"lic1@srv", 10, 5, 5, 2⟩
    ∧ (create_update_license_reservation "lic1@srv"
        (resUpdateValue ⟨"lic1", "srv", "flexlm", 10, 3, false, "lic1@srv"⟩
          ⟨"lic1@srv", 10, 5, 5, 2⟩)
        ∈ [create_update_license_reservation "lic1@srv" 0]
        ↔ (false = true ∨ resUpdateValue
            ⟨"lic1", "srv", "flexlm", 10, 3, false, "lic1@srv"⟩
            ⟨"lic1@srv", 10, 5, 5, 2⟩ ≠ 2)))
    ∧ resUpdateValue ⟨"lic1", "srv", "flexlm", 10, 7, false, "lic1@srv"⟩
        ⟨"lic1@srv", 10, 2, 8, 4⟩ = 5 := by
  constructor
  · exact claim_C3_amended_reservation_arithmetic
      [("external_license_lic1@srv",
        ⟨"lic1", "srv", "flexlm", 10, 3, false, "lic1@srv"⟩)]
      [("external_license_lic1@srv", ⟨"lic1@srv", 10, 5, 5, 2⟩)]
      false ["external_license_lic1@srv"] "external_license_lic1@srv"
      ⟨"lic1", "srv", "flexlm", 10, 3, false, "lic1@srv"⟩
      ⟨"lic1@srv", 10, 5, 5, 2⟩
      [create_update_license_reservation "lic1@srv" 0]
      [(LogLevel.debug, "Command to update license reservation %s"),
       (LogLevel.debug, clampDebugTag)]
      (by decide) (by decide) (by decide) (by decide) (by decide) (by rfl)
  · decide

/-! ## Claim C6: the skip marker excludes an entity from all license
reconciliation -/

theorem except_bind_ok {α β : Type} {x : Except String α}
    {f : α → Except String β} {v : β} (h : x >>= f = .ok v) :
    ∃ a, x = .ok a ∧ f a = .ok v := by
  cases x with
  | error e => exact absurd h (by simp [Bind.bind, Except.bind])
  | ok a => exact ⟨a, rfl, h⟩

theorem licNewCmds_ok {licenses : List (String × License)}
    {clusters : List String} {l : List String} {cmds : List Cmd}
    (h : licNewCmds licenses clusters l = .ok cmds) :
    cmds = l.flatMap (licNewEmit licenses clusters) := by
  induction l generalizing cmds with
  | nil =>
      simp only [licNewCmds, Except.ok.injEq] at h
      simp [h.symm]
  | cons name rest ih =>
      simp only [licNewCmds] at h
      cases hfind : dictFind licenses name with
      | none => rw [hfind] at h; exact absurd h (by simp)
      | some lic =>
          rw [hfind] at h
          obtain ⟨tail, htail, hf⟩ := except_bind_ok h
          simp only [Except.ok.injEq] at hf
          simp [hf.symm, List.flatMap_cons, licNewEmit, hfind, ih htail]

theorem licUpdateCmds_ok {licenses : List (String × License)}
    {info : List (String × SlurmResource)} {force : Bool} {l : List String}
    {cmds : List Cmd}
    (h : licUpdateCmds licenses info force l = .ok cmds) :
    cmds = l.flatMap (licUpdateEmit licenses info force) := by
  induction l generalizing cmds with
  | nil =>
      simp only [licUpdateCmds, Except.ok.injEq] at h
      simp [h.symm]
  | cons name rest ih =>
      simp only [licUpdateCmds] at h
      cases hfind : dictFind licenses name with
      | none => rw [hfind] at h; exact absurd h (by simp)
      | some lic =>
          rw [hfind] at h
          cases hfind2 : dictFind info name with
          | none => rw [hfind2] at h; exact absurd h (by simp)
          | some inf =>
              rw [hfind2] at h
              obtain ⟨tail, htail, hf⟩ := except_bind_ok h
              by_cases hcond : force = true ∨ lic.count ≠ inf.Count
              · rw [if_pos hcond] at hf
                simp only [Except.ok.injEq] at hf
                simp [hf.symm, List.flatMap_cons, licUpdateEmit, hfind,
                  hfind2, if_pos hcond, ih htail]
              · rw [if_neg hcond] at hf
                simp only [Except.ok.injEq] at hf
                simp [hf.symm, List.flatMap_cons, licUpdateEmit, hfind,
                  hfind2, if_neg hcond, ih htail]

theorem licRemoveCmds_ok {info : List (String × SlurmResource)}
    {l : List String} {cmds : List Cmd}
    (h : licRemoveCmds info l = .ok cmds) :
    cmds = l.flatMap (licRemoveEmit info) := by
  induction l generalizing cmds with
  | nil =>
      simp only [licRemoveCmds, Except.ok.injEq] at h
      simp [h.symm]
  | cons name rest ih =>
      simp only [licRemoveCmds] at h
      cases hfind : dictFind info name with
      | none => rw [hfind] at h; exact absurd h (by simp)
      | some lic =>
          rw [hfind] at h
          obtain ⟨tail, htail, hf⟩ := except_bind_ok h
          simp only [Except.ok.injEq] at hf
          simp [hf.symm, List.flatMap_cons, licRemoveEmit, hfind, ih htail]

theorem resNewCmds_ok {rlicenses : List (String × License)}
    {partition : String} {l : List String} {cmds : List Cmd}
    {logs : List LogEvent}
    (h : resNewCmds rlicenses partition l = .ok (cmds, logs)) :
    cmds = l.flatMap (resNewEmit rlicenses partition) := by
  induction l generalizing cmds logs with
  | nil =>
      simp only [resNewCmds, Except.ok.injEq, Prod.mk.injEq] at h
      simp [h.1.symm]
  | cons res rest ih =>
      simp only [resNewCmds] at h
      cases hfind : dictFind rlicenses res with
      | none => rw [hfind] at h; exact absurd h (by simp)
      | some lic =>
          rw [hfind] at h
          obtain ⟨tail, htail, hf⟩ := except_bind_ok h
          obtain ⟨tc, tl⟩ := tail
          simp only [Except.ok.injEq, Prod.mk.injEq] at hf
          simp [hf.1.symm, List.flatMap_cons, resNewEmit, hfind, ih htail]

theorem resUpdateCmds_ok {rlicenses : List (String × License)}
    {lics : List (String × SlurmLicense)} {force : Bool} {l : List String}
    {cmds : List Cmd} {logs : List LogEvent}
    (h : resUpdateCmds rlicenses lics force l = .ok (cmds, logs)) :
    cmds = l.flatMap (resUpdateEmit rlicenses lics force) := by
  induction l generalizing cmds logs with
  | nil =>
      simp only [resUpdateCmds, Except.ok.injEq, Prod.mk.injEq] at h
      simp [h.1.symm]
  | cons res rest ih =>
      simp only [resUpdateCmds] at h
      cases hfind : dictFind rlicenses res with
      | none => rw [hfind] at h; exact absurd h (by simp)
      | some lic =>
          rw [hfind] at h
          cases hfind2 : dictFind lics res with
          | none => rw [hfind2] at h; exact absurd h (by simp)
          | some slic =>
              rw [hfind2] at h
              obtain ⟨tail, htail, hf⟩ := except_bind_ok h
              obtain ⟨tc, tl⟩ := tail
              by_cases hcond : force = true
                ∨ (if slic.Used > lic.in_use then 0
                    else lic.in_use - slic.Used) ≠ slic.Reserved
              · rw [if_pos hcond] at hf
                simp only [Except.ok.injEq, Prod.mk.injEq] at hf
                simp [hf.1.symm, List.flatMap_cons, resUpdateEmit, hfind,
                  hfind2, resUpdateValue, if_pos hcond, ih htail]
              · rw [if_neg hcond] at hf
                simp only [Except.ok.injEq, Prod.mk.injEq] at hf
                simp [hf.1.symm, List.flatMap_cons, resUpdateEmit, hfind,
                  hfind2, resUpdateValue, if_neg hcond, ih htail]

theorem resRemoveCmds_eq (l : List String) :
    resRemoveCmds l
      = (l.map create_delete_reservation,
         l.map (fun _ =>
           ((LogLevel.debug, "Command to remove license reservation %s") :
             LogEvent))) := by
  induction l with
  | nil => rfl
  | cons res rest ih => simp [resRemoveCmds, ih]

theorem dictFind_mem_keys {α : Type} {d : List (String × α)} {k : String}
    {v : α} (h : dictFind d k = some v) : k ∈ dictKeys d := by
  induction d with
  | nil => simp [dictFind] at h
  | cons hd tl ih =>
      by_cases h1 : hd.1 = k
      · simp [dictKeys, h1]
      · simp only [dictFind, if_neg h1] at h
        simp [dictKeys] at ih ⊢
        exact Or.inr (ih h)

theorem mem_skipKeys {licenses : List (String × License)} {k : String}
    {lic : License} (h : dictFind licenses k = some lic)
    (hs : lic.skip = true) : k ∈ skipKeys licenses := by
  simp only [skipKeys, mem_pySet, List.mem_filter]
  refine ⟨dictFind_mem_keys h, ?_⟩
  simp [h, hs]

theorem make_license_reservation_name_inj {a b : String}
    (h : make_license_reservation_name a = make_license_reservation_name b) :
    a = b := str_append_left_cancel h

theorem dictFind_rlicensesOf_aux_untouched
    (pairs : List (String × License)) (d : List (String × License))
    (k : String) (hk : ¬ k ∈ dictKeys pairs) :
    dictFind
      (pairs.foldl
        (fun d kv =>
          dictInsert d (make_license_reservation_name kv.1)
            { kv.2 with fullname := kv.1 })
        d)
      (make_license_reservation_name k)
      = dictFind d (make_license_reservation_name k) := by
  induction pairs generalizing d with
  | nil => rfl
  | cons hd tl ih =>
      simp only [dictKeys, List.map_cons, List.mem_cons, not_or] at hk
      obtain ⟨hk1, hk2⟩ := hk
      rw [List.foldl_cons]
      rw [ih _ (by simpa [dictKeys] using hk2)]
      exact dictFind_dictInsert_ne _ _ _ _
        (fun heq => hk1 (make_license_reservation_name_inj heq))

theorem dictFind_rlicensesOf_aux (pairs : List (String × License))
    (d : List (String × License)) (k : String) (lic : License)
    (hkeys : (dictKeys pairs).Nodup)
    (h : dictFind pairs k = some lic) :
    dictFind
      (pairs.foldl
        (fun d kv =>
          dictInsert d (make_license_reservation_name kv.1)
            { kv.2 with fullname := kv.1 })
        d)
      (make_license_reservation_name k)
      = some { lic with fullname := k } := by
  induction pairs generalizing d lic with
  | nil => simp [dictFind] at h
  | cons hd tl ih =>
      obtain ⟨khd, vhd⟩ := hd
      simp only [dictKeys, List.map_cons, List.nodup_cons] at hkeys
      obtain ⟨hknot, hktl⟩ := hkeys
      by_cases h1 : khd = k
      · subst h1
        simp only [dictFind, eq_self_iff_true, if_true,
          Option.some.injEq] at h
        subst h
        rw [List.foldl_cons]
        rw [dictFind_rlicensesOf_aux_untouched tl _ khd
          (by simpa [dictKeys] using hknot)]
        exact dictFind_dictInsert_self _ _ _
      · simp only [dictFind, if_neg h1] at h
        rw [List.foldl_cons]
        exact ih _ _ hktl h

theorem dictFind_rlicensesOf {licenses : List (String × License)}
    {k : String} {lic : License}
    (hkeys : (dictKeys licenses).Nodup)
    (h : dictFind licenses k = some lic) :
    dictFind (rlicensesOf licenses) (make_license_reservation_name k)
      = some { lic with fullname := k } :=
  dictFind_rlicensesOf_aux licenses [] k lic hkeys h

/-- C6: a desired license entity carrying the skip marker contributes
nothing to either reconciliation: every command either reconciler
emits is generated for a key different from the skipped entity's key
(resource commands) or reservation name (reservation commands), even
when the skipped entity is present in the observed Slurm state. -/
theorem claim_C6_skip_marker_excludes_entity
    (licenses : List (String × License)) (key : String) (lic : License)
    (clusters ignore_resources : List String) (force : Bool)
    (info0 : List SlurmResource) (nw rm : List Cmd)
    (cluster partition : String) (ignore_reservations : List String)
    (configClusterName : String) (partitions : List String)
    (scontrol_licenses : List (String × SlurmLicense))
    (scontrol_reservations : List (String × SlurmReservation))
    (nw2 rm2 : List Cmd) (logs2 : List LogEvent)
    (hkeys : (dictKeys licenses).Nodup)
    (hlic : dictFind licenses key = some lic)
    (hskip : lic.skip = true)
    (hrun1 : update_licenses licenses clusters ignore_resources force info0
      = .ok (nw, rm))
    (hrun2 : update_license_reservations licenses cluster partition
      ignore_reservations force configClusterName partitions
      scontrol_licenses scontrol_reservations = .ok (nw2, rm2, logs2)) :
    (∀ cmd ∈ nw, ∃ k2, ¬ k2 = key
      ∧ (cmd ∈ licNewEmit licenses clusters k2
         ∨ cmd ∈ licUpdateEmit licenses
             (licResourceInfo ignore_resources info0) force k2))
    ∧ (∀ cmd ∈ rm, ∃ k2, ¬ k2 = key
        ∧ cmd ∈ licRemoveEmit (licResourceInfo ignore_resources info0) k2)
    ∧ (∀ cmd ∈ nw2, ∃ r2, ¬ r2 = make_license_reservation_name key
        ∧ (cmd ∈ resNewEmit (rlicensesOf licenses) partition r2
           ∨ cmd ∈ resUpdateEmit (rlicensesOf licenses)
               (scontrolLicenseDict scontrol_licenses) force r2))
    ∧ (∀ cmd ∈ rm2, ∃ r2, ¬ r2 = make_license_reservation_name key
        ∧ cmd = create_delete_reservation r2) := by
  have hkey_skip : key ∈ skipKeys licenses := mem_skipKeys hlic hskip
  have hskip_ne : skipKeys licenses ≠ [] := List.ne_nil_of_mem hkey_skip
  -- resources
  simp only [update_licenses] at hrun1
  obtain ⟨a1, hX, h1r⟩ := except_bind_ok hrun1
  obtain ⟨a2, hY, h2r⟩ := except_bind_ok h1r
  obtain ⟨a3, hZ, h3r⟩ := except_bind_ok h2r
  simp only [Except.ok.injEq, Prod.mk.injEq] at h3r
  obtain ⟨hnw, hrm⟩ := h3r
  have hkc : ¬ key ∈ (if skipKeys licenses = []
      then pySet (dictKeys licenses)
      else pyDiff (pySet (dictKeys licenses)) (skipKeys licenses)) := by
    rw [if_neg hskip_ne]
    intro hmem
    exact (mem_pyDiff.mp hmem).2 hkey_skip
  have hkk : ¬ key ∈ (if skipKeys licenses = []
      then pySet (dictKeys (licResourceInfo ignore_resources info0))
      else pyDiff (pySet (dictKeys (licResourceInfo ignore_resources
        info0))) (skipKeys licenses)) := by
    rw [if_neg hskip_ne]
    intro hmem
    exact (mem_pyDiff.mp hmem).2 hkey_skip
  refine ⟨?_, ?_, ?_, ?_⟩
  · intro cmd hcmd
    rw [← hnw] at hcmd
    rcases List.mem_append.mp hcmd with hc | hc
    · rw [licNewCmds_ok hX] at hc
      rcases List.mem_flatMap.mp hc with ⟨k2, hk2, hck⟩
      refine ⟨k2, ?_, Or.inl hck⟩
      intro heq
      subst heq
      rw [mem_pySorted, mem_pyDiff] at hk2
      exact hkc hk2.1
    · rw [licUpdateCmds_ok hY] at hc
      rcases List.mem_flatMap.mp hc with ⟨k2, hk2, hck⟩
      refine ⟨k2, ?_, Or.inr hck⟩
      intro heq
      subst heq
      rw [mem_pySorted, mem_pyInter] at hk2
      exact hkc hk2.1
  · intro cmd hcmd
    rw [← hrm] at hcmd
    rw [licRemoveCmds_ok hZ] at hcmd
    rcases List.mem_flatMap.mp hcmd with ⟨k2, hk2, hck⟩
    refine ⟨k2, ?_, hck⟩
    intro heq
    subst heq
    rw [mem_pySorted, mem_pyDiff] at hk2
    exact hkk hk2.1
  all_goals {
    -- reservations
    simp only [update_license_reservations] at hrun2
    split at hrun2
    · exact absurd hrun2 (by simp)
    · split at hrun2
      · exact absurd hrun2 (by simp)
      · have hresskip : make_license_reservation_name key
            ∈ skipKeys (rlicensesOf licenses) := by
          apply mem_skipKeys (dictFind_rlicensesOf hkeys hlic)
          simpa using hskip
        have hresskip_ne : skipKeys (rlicensesOf licenses) ≠ [] :=
          List.ne_nil_of_mem hresskip
        have hrc : ¬ make_license_reservation_name key
            ∈ (if skipKeys (rlicensesOf licenses) = []
              then pySet (dictKeys (rlicensesOf licenses))
              else pyDiff (pySet (dictKeys (rlicensesOf licenses)))
                (skipKeys (rlicensesOf licenses))) := by
          rw [if_neg hresskip_ne]
          intro hmem
          exact (mem_pyDiff.mp hmem).2 hresskip
        have hrk : ¬ make_license_reservation_name key
            ∈ (if skipKeys (rlicensesOf licenses) = []
              then pySet (dictKeys (licenseReservations
                ignore_reservations scontrol_reservations))
              else pyDiff (pySet (dictKeys (licenseReservations
                ignore_reservations scontrol_reservations)))
                (skipKeys (rlicensesOf licenses))) := by
          rw [if_neg hresskip_ne]
          intro hmem
          exact (mem_pyDiff.mp hmem).2 hresskip
        obtain ⟨p1, hN, h1r2⟩ := except_bind_ok hrun2
        obtain ⟨nc, nl⟩ := p1
        obtain ⟨p2, hU, h2r2⟩ := except_bind_ok h1r2
        obtain ⟨uc, ul⟩ := p2
        rw [resRemoveCmds_eq] at h2r2
        simp only [Except.ok.injEq, Prod.mk.injEq] at h2r2
        obtain ⟨hnw2, hrm2, -⟩ := h2r2
        first
        | -- the nw2 bullet
          (intro cmd hcmd
           rw [← hnw2] at hcmd
           rcases List.mem_append.mp hcmd with hc | hc
           · rcases List.mem_flatMap.mp (by
                rw [resNewCmds_ok hN] at hc
                exact hc) with ⟨r2, hr2, hcr⟩
             refine ⟨r2, ?_, Or.inl hcr⟩
             intro heq
             subst heq
             rw [mem_pySorted, mem_pyDiff] at hr2
             exact hrc hr2.1
           · rcases List.mem_flatMap.mp (by
                rw [resUpdateCmds_ok hU] at hc
                exact hc) with ⟨r2, hr2, hcr⟩
             refine ⟨r2, ?_, Or.inr hcr⟩
             intro heq
             subst heq
             rw [mem_pySorted, mem_pyInter] at hr2
             exact hrc hr2.1)
        | -- the rm2 bullet
          (intro cmd hcmd
           rw [← hrm2] at hcmd
           rcases List.mem_map.mp hcmd with ⟨r2, hr2, hcr⟩
           refine ⟨r2, ?_, hcr.symm⟩
           intro heq
           subst heq
           rw [mem_pySorted, mem_pyDiff] at hr2
           exact hrk hr2.1)
  }

/-- C6 witness: a skipped license (`an-5@ano-comp2`, present both as an
observed resource and as an observed reservation) produces no resource
and no reservation commands at all; the theorem's guarantees hold
vacuously on the empty outputs. -/
theorem claim_C6_witness :
    (∀ cmd ∈ ([] : List Cmd), ∃ k2, ¬ k2 = "an-5@ano-comp2"
      ∧ (cmd ∈ licNewEmit
          [("an-5@ano-comp2",
            ⟨"an-5", "ano-comp2", "flexlm", 7, 3, true, ""⟩)] ["clust1"] k2
         ∨ cmd ∈ licUpdateEmit
            [("an-5@ano-comp2",
              ⟨"an-5", "ano-comp2", "flexlm", 7, 3, true, ""⟩)]
            (licResourceInfo []
              [⟨"an-5", "ano-comp2", "License", 20, "flexlm"⟩]) false k2))
    ∧ (∀ cmd ∈ ([] : List Cmd), ∃ k2, ¬ k2 = "an-5@ano-comp2"
        ∧ cmd ∈ licRemoveEmit
            (licResourceInfo []
              [⟨"an-5", "ano-comp2", "License", 20, "flexlm"⟩]) k2)
    ∧ (∀ cmd ∈ ([] : List Cmd), ∃ r2,
        ¬ r2 = make_license_reservation_name "an-5@ano-comp2"
        ∧ (cmd ∈ resNewEmit
            (rlicensesOf
              [("an-5@ano-comp2",
                ⟨"an-5", "ano-comp2", "flexlm", 7, 3, true, ""⟩)])
            "mypart" r2
           ∨ cmd ∈ resUpdateEmit
              (rlicensesOf
                [("an-5@ano-comp2",
                  ⟨"an-5", "ano-comp2", "flexlm", 7, 3, true, ""⟩)])
              (scontrolLicenseDict
                [("an-5@ano-comp2", ⟨"an-5@ano-comp2", 20, 0, 20, 4⟩)])
              false r2))
    ∧ (∀ cmd ∈ ([] : List Cmd), ∃ r2,
        ¬ r2 = make_license_reservation_name "an-5@ano-comp2"
        ∧ cmd = create_delete_reservation r2) :=
  claim_C6_skip_marker_excludes_entity
    [("an-5@ano-comp2", ⟨"an-5", "ano-comp2", "flexlm", 7, 3, true, ""⟩)]
    "an-5@ano-comp2" ⟨"an-5", "ano-comp2", "flexlm", 7, 3, true, ""⟩
    ["clust1"] [] false
    [⟨"an-5", "ano-comp2", "License", 20, "flexlm"⟩] [] []
    "mycluster" "mypart" [] "mycluster" ["mypart"]
    [("an-5@ano-comp2", ⟨"an-5@ano-comp2", 20, 0, 20, 4⟩)]
    [("external_license_an-5@ano-comp2",
      ⟨"external_license_an-5@ano-comp2", some "an-5@ano-comp2:4"⟩)]
    [] []
    [(LogLevel.debug, "Existing licenses %s"),
     (LogLevel.debug, "Existing license reservations %s"),
     (LogLevel.warning, "License reservations to skip: %s")]
    (by decide) (by decide) (by decide) (by rfl) (by rfl)

/-! ## Claim C8: moved users missing from the reverse VO map -/

theorem userSyncStep_moved (rev : List (String × (String × String)))
    (act : List String) (cua : List (String × String)) (cu : List String)
    (st : UserSyncState) (e : String × (List String × VirtualOrg)) :
    (userSyncStep rev act cua cu st e).moved_users
      = if ((changedUsersVo act cua e.1 e.2.1).all
            (fun u => (dictFind rev u).isSome)) = true
        then pyUnion st.moved_users
          ((changedUsersVo act cua e.1 e.2.1).map
            (fun u => (u, e.1, (dictFind rev u).getD ("", ""))))
        else st.moved_users := by
  by_cases h : ((changedUsersVo act cua e.1 e.2.1).all
      (fun u => (dictFind rev u).isSome)) = true
  · simp [userSyncStep, h]
  · simp [userSyncStep, h]

theorem userSyncStep_logs (rev : List (String × (String × String)))
    (act : List String) (cua : List (String × String)) (cu : List String)
    (st : UserSyncState) (e : String × (List String × VirtualOrg)) :
    (userSyncStep rev act cua cu st e).logs
      = if ((changedUsersVo act cua e.1 e.2.1).all
            (fun u => (dictFind rev u).isSome)) = true
        then st.logs
        else st.logs ++ [(LogLevel.warning, revMapWarnTag)] := by
  by_cases h : ((changedUsersVo act cua e.1 e.2.1).all
      (fun u => (dictFind rev u).isSome)) = true
  · simp [userSyncStep, h]
  · simp [userSyncStep, h]

theorem mem_moved_foldl_aux (rev : List (String × (String × String)))
    (act : List String) (cua : List (String × String)) (cu : List String)
    (l : List (String × (List String × VirtualOrg))) (t : MovedUser) :
    ∀ st : UserSyncState,
    (t ∈ (l.foldl (userSyncStep rev act cua cu) st).moved_users
      ↔ t ∈ st.moved_users
        ∨ ∃ e ∈ l,
            ((changedUsersVo act cua e.1 e.2.1).all
              (fun u => (dictFind rev u).isSome)) = true
            ∧ ∃ u ∈ changedUsersVo act cua e.1 e.2.1,
                t = (u, e.1, (dictFind rev u).getD ("", ""))) := by
  induction l with
  | nil =>
      intro st
      constructor
      · exact fun h => Or.inl h
      · rintro (h | ⟨e, he, -⟩)
        · exact h
        · exact absurd he (List.not_mem_nil e)
  | cons e rest ih =>
      intro st
      rw [List.foldl_cons, ih]
      by_cases h : ((changedUsersVo act cua e.1 e.2.1).all
          (fun u => (dictFind rev u).isSome)) = true
      · rw [userSyncStep_moved, if_pos h]
        constructor
        · rintro (hm | hrest)
          · rcases mem_pyUnion.mp hm with hm2 | hm2
            · exact Or.inl hm2
            · rcases List.mem_map.mp hm2 with ⟨u, hu, rfl⟩
              exact Or.inr ⟨e, List.mem_cons_self e rest, h, u, hu, rfl⟩
          · rcases hrest with ⟨e2, he2, h2, u, hu, ht⟩
            exact Or.inr ⟨e2, List.mem_cons_of_mem _ he2, h2, u, hu, ht⟩
        · rintro (hm | ⟨e2, he2, h2, u, hu, ht⟩)
          · exact Or.inl (mem_pyUnion.mpr (Or.inl hm))
          · rcases List.mem_cons.mp he2 with rfl | he2r
            · exact Or.inl (mem_pyUnion.mpr (Or.inr
                (ht ▸ List.mem_map_of_mem _ hu)))
            · exact Or.inr ⟨e2, he2r, h2, u, hu, ht⟩
      · rw [userSyncStep_moved, if_neg h]
        constructor
        · rintro (hm | ⟨e2, he2, h2, u, hu, ht⟩)
          · exact Or.inl hm
          · exact Or.inr ⟨e2, List.mem_cons_of_mem _ he2, h2, u, hu, ht⟩
        · rintro (hm | ⟨e2, he2, h2, u, hu, ht⟩)
          · exact Or.inl hm
          · rcases List.mem_cons.mp he2 with rfl | he2r
            · exact absurd h2 h
            · exact Or.inr ⟨e2, he2r, h2, u, hu, ht⟩

theorem mem_moved_userSyncFold (rev : List (String × (String × String)))
    (act : List String) (cua : List (String × String)) (cu : List String)
    (l : List (String × (List String × VirtualOrg))) (t : MovedUser) :
    t ∈ (userSyncFold rev act cua cu l).moved_users
      ↔ ∃ e ∈ l,
          ((changedUsersVo act cua e.1 e.2.1).all
            (fun u => (dictFind rev u).isSome)) = true
          ∧ ∃ u ∈ changedUsersVo act cua e.1 e.2.1,
              t = (u, e.1, (dictFind rev u).getD ("", "")) := by
  rw [userSyncFold, mem_moved_foldl_aux]
  constructor
  · rintro (h | h)
    · exact absurd h (List.not_mem_nil t)
    · exact h
  · exact Or.inr

theorem warn_mem_foldl_aux (rev : List (String × (String × String)))
    (act : List String) (cua : List (String × String)) (cu : List String)
    (l : List (String × (List String × VirtualOrg))) :
    ∀ st : UserSyncState,
    ((LogLevel.warning, revMapWarnTag)
        ∈ (l.foldl (userSyncStep rev act cua cu) st).logs
      ↔ (LogLevel.warning, revMapWarnTag) ∈ st.logs
        ∨ ∃ e ∈ l,
            ¬ ((changedUsersVo act cua e.1 e.2.1).all
              (fun u => (dictFind rev u).isSome)) = true) := by
  induction l with
  | nil =>
      intro st
      constructor
      · exact fun h => Or.inl h
      · rintro (h | ⟨e, he, -⟩)
        · exact h
        · exact absurd he (List.not_mem_nil e)
  | cons e rest ih =>
      intro st
      rw [List.foldl_cons, ih]
      by_cases h : ((changedUsersVo act cua e.1 e.2.1).all
          (fun u => (dictFind rev u).isSome)) = true
      · rw [userSyncStep_logs, if_pos h]
        constructor
        · rintro (hm | ⟨e2, he2, h2⟩)
          · exact Or.inl hm
          · exact Or.inr ⟨e2, List.mem_cons_of_mem _ he2, h2⟩
        · rintro (hm | ⟨e2, he2, h2⟩)
          · exact Or.inl hm
          · rcases List.mem_cons.mp he2 with rfl | he2r
            · exact absurd h h2
            · exact Or.inr ⟨e2, he2r, h2⟩
      · rw [userSyncStep_logs, if_neg h]
        constructor
        · rintro (hm | ⟨e2, he2, h2⟩)
          · rcases List.mem_append.mp hm with hm2 | hm2
            · exact Or.inl hm2
            · exact Or.inr ⟨e, List.mem_cons_self e rest, h⟩
          · exact Or.inr ⟨e2, List.mem_cons_of_mem _ he2, h2⟩
        · rintro (hm | ⟨e2, he2, h2⟩)
          · exact Or.inl (List.mem_append.mpr (Or.inl hm))
          · rcases List.mem_cons.mp he2 with rfl | he2r
            · exact Or.inl (List.mem_append.mpr (Or.inr (by simp)))
            · exact Or.inr ⟨e2, he2r, h2⟩

theorem warn_mem_userSyncFold (rev : List (String × (String × String)))
    (act : List String) (cua : List (String × String)) (cu : List String)
    (l : List (String × (List String × VirtualOrg))) :
    (LogLevel.warning, revMapWarnTag)
        ∈ (userSyncFold rev act cua cu l).logs
      ↔ ∃ e ∈ l,
          ¬ ((changedUsersVo act cua e.1 e.2.1).all
            (fun u => (dictFind rev u).isSome)) = true := by
  rw [userSyncFold, warn_mem_foldl_aux]
  constructor
  · rintro (h | h)
    · exact absurd h (List.not_mem_nil _)
    · exact h
  · exact Or.inr

theorem slurm_user_accounts_parts
    (vo_members : List (String × (List String × VirtualOrg)))
    (active_accounts : List String) (slurm_user_info : List SlurmUser)
    (clusters : List String) :
    slurm_user_accounts vo_members active_accounts slurm_user_info clusters
      = ((clusters.map (fun c =>
            (clusterUserSync vo_members active_accounts slurm_user_info
              (activeVoMembers vo_members active_accounts)
              (reverseVoMapping vo_members) c).1)).flatten,
         (clusters.map (fun c =>
            (clusterUserSync vo_members active_accounts slurm_user_info
              (activeVoMembers vo_members active_accounts)
              (reverseVoMapping vo_members) c).2.1)).flatten,
         (clusters.map (fun c =>
            (clusterUserSync vo_members active_accounts slurm_user_info
              (activeVoMembers vo_members active_accounts)
              (reverseVoMapping vo_members) c).2.2)).flatten) := by
  simp only [slurm_user_accounts]
  induction clusters with
  | nil => rfl
  | cons c rest ih => simp [ih]

/-- C8 counterexample: both `u1` and `u2` are changed (moved away from
`voB`) and active; `u1` has a new VO (`voA`) in the reverse map while
`u2` has none.  The claim says `u1` — an "other moved user" — still
produces its change-user commands; in fact the `KeyError` discards the
whole `voB` batch, so the output contains no command for `u1` at all
(only the removal of `u2`, who is in no VO), though the warning is
logged and the run completes. -/
theorem claim_C8_counterexample :
    slurm_user_accounts
      [("voB", ([], ⟨"voB", Institute.gent, 1⟩)),
       ("voA", (["u1"], ⟨"voA", Institute.gent, 1⟩))]
      ["u1", "u2"]
      [⟨"u1", "voB", "c"⟩, ⟨"u2", "voB", "c"⟩]
      ["c"]
      = ([create_remove_user_jobs_command "u2" "c" none none],
         [create_remove_user_command "u2" "c"],
         [(LogLevel.warning, revMapWarnTag),
          (LogLevel.debug, "%d new users"),
          (LogLevel.debug, "%d removed users"),
          (LogLevel.debug, "%d changed users")])
    ∧ ¬ create_add_user_command "u1" "voA" "c" none
        ∈ [create_remove_user_command "u2" "c"]
    ∧ dictFind (reverseVoMapping
        [("voB", ([], ⟨"voB", Institute.gent, 1⟩)),
         ("voA", (["u1"], ⟨"voA", Institute.gent, 1⟩))]) "u1"
        = some ("voA", "gent")
    ∧ "u1" ∈ changedUsersVo ["u1", "u2"]
        (clusterUsersAcct
          [⟨"u1", "voB", "c"⟩, ⟨"u2", "voB", "c"⟩] "c") "voB" [] := by
  refine ⟨rfl, ?_, ?_, ?_⟩ <;> decide

/-- C8 amended: when a changed user of one VO batch is absent from the
reverse VO map, the run still completes with a logged warning, but the
ENTIRE per-VO batch of changed users is excluded from moved-user
command generation (not just the missing user); batches of other VOs
whose changed users all resolve are still processed and produce their
change-user commands. -/
theorem claim_C8_amended_moved_user_batches
    (vo_members : List (String × (List String × VirtualOrg)))
    (active_accounts : List String) (slurm_user_info : List SlurmUser)
    (clusters : List String) (c : String) (jc cmds : List Cmd)
    (logs : List LogEvent) (e : String × (List String × VirtualOrg))
    (ustar : String)
    (hkeys : (vo_members.map Prod.fst).Nodup)
    (hc : c ∈ clusters)
    (hrun : slurm_user_accounts vo_members active_accounts slurm_user_info
      clusters = (jc, cmds, logs))
    (he : e ∈ vo_members)
    (hustar : ustar ∈ changedUsersVo active_accounts
      (clusterUsersAcct slurm_user_info c) e.1 e.2.1)
    (hmissing : dictFind (reverseVoMapping vo_members) ustar = none) :
    (LogLevel.warning, revMapWarnTag) ∈ logs
    ∧ (∀ u ∈ changedUsersVo active_accounts
          (clusterUsersAcct slurm_user_info c) e.1 e.2.1,
        ∀ r : String × String,
          ¬ (u, e.1, r) ∈ (userSyncFold (reverseVoMapping vo_members)
              active_accounts (clusterUsersAcct slurm_user_info c)
              (pySet ((clusterUsersAcct slurm_user_info c).map Prod.fst))
              vo_members).moved_users)
    ∧ (∀ e2 ∈ vo_members,
        ((changedUsersVo active_accounts
            (clusterUsersAcct slurm_user_info c) e2.1 e2.2.1).all
          (fun u => (dictFind (reverseVoMapping vo_members) u).isSome))
          = true →
        ∀ u ∈ changedUsersVo active_accounts
            (clusterUsersAcct slurm_user_info c) e2.1 e2.2.1,
          ∀ r : String × String,
            dictFind (reverseVoMapping vo_members) u = some r →
            (u, e2.1, r) ∈ (userSyncFold (reverseVoMapping vo_members)
                active_accounts (clusterUsersAcct slurm_user_info c)
                (pySet ((clusterUsersAcct slurm_user_info c).map Prod.fst))
                vo_members).moved_users
            ∧ create_add_user_command u r.1 c none ∈ cmds
            ∧ create_default_account_command u r.1 c ∈ cmds
            ∧ [SLURM_SACCT_MGR, "-i", "delete", "user", "name=" ++ u,
                "Account=" ++ e2.1, "Cluster=" ++ c] ∈ cmds
            ∧ create_remove_user_jobs_command u c none (some e2.1) ∈ jc) := by
  rw [slurm_user_accounts_parts] at hrun
  simp only [Prod.mk.injEq] at hrun
  obtain ⟨hjc, hcmds, hlogs⟩ := hrun
  have hnotall : ¬ ((changedUsersVo active_accounts
      (clusterUsersAcct slurm_user_info c) e.1 e.2.1).all
      (fun u => (dictFind (reverseVoMapping vo_members) u).isSome))
      = true := by
    intro hall
    have := List.all_eq_true.mp hall ustar hustar
    simp [hmissing] at this
  refine ⟨?_, ?_, ?_⟩
  · -- the warning reaches the log trace
    have hwarn : (LogLevel.warning, revMapWarnTag)
        ∈ (userSyncFold (reverseVoMapping vo_members) active_accounts
          (clusterUsersAcct slurm_user_info c)
          (pySet ((clusterUsersAcct slurm_user_info c).map Prod.fst))
          vo_members).logs :=
      (warn_mem_userSyncFold _ _ _ _ _).mpr ⟨e, he, hnotall⟩
    rw [← hlogs]
    apply List.mem_flatten.mpr
    refine ⟨(clusterUserSync vo_members active_accounts slurm_user_info
      (activeVoMembers vo_members active_accounts)
      (reverseVoMapping vo_members) c).2.2,
      List.mem_map_of_mem _ hc, ?_⟩
    exact List.mem_append.mpr (Or.inl hwarn)
  · -- the whole failing batch is excluded
    intro u hu r hmem
    rw [mem_moved_userSyncFold] at hmem
    obtain ⟨e2, he2, hall2, u2, hu2, ht⟩ := hmem
    have hfst : e.1 = e2.1 := congrArg (fun t : MovedUser => t.2.1) ht
    have he2e : e2 = e :=
      List.inj_on_of_nodup_map hkeys he2 he hfst.symm
    rw [he2e] at hall2
    exact hnotall hall2
  · -- fully resolving batches still generate their commands
    intro e2 he2 hall2 u hu r hr
    have hmoved : ((u, e2.1, r) : MovedUser)
        ∈ (userSyncFold (reverseVoMapping vo_members) active_accounts
          (clusterUsersAcct slurm_user_info c)
          (pySet ((clusterUsersAcct slurm_user_info c).map Prod.fst))
          vo_members).moved_users := by
      rw [mem_moved_userSyncFold]
      exact ⟨e2, he2, hall2, u, hu, by rw [hr]; rfl⟩
    refine ⟨hmoved, ?_, ?_, ?_, ?_⟩
    all_goals {
      first
      | -- membership of a command piece in the commands bucket
        (rw [← hcmds]
         apply List.mem_flatten.mpr
         refine ⟨(clusterUserSync vo_members active_accounts slurm_user_info
           (activeVoMembers vo_members active_accounts)
           (reverseVoMapping vo_members) c).2.1,
           List.mem_map_of_mem _ hc, ?_⟩
         apply List.mem_append.mpr
         apply Or.inr
         apply List.mem_flatMap.mpr
         refine ⟨(u, e2.1, r), hmoved, ?_⟩
         simp [create_change_user_command])
      | -- membership of the job-cancel piece in the cancel bucket
        (rw [← hjc]
         apply List.mem_flatten.mpr
         refine ⟨(clusterUserSync vo_members active_accounts slurm_user_info
           (activeVoMembers vo_members active_accounts)
           (reverseVoMapping vo_members) c).1,
           List.mem_map_of_mem _ hc, ?_⟩
         apply List.mem_append.mpr
         apply Or.inr
         apply List.mem_flatMap.mpr
         refine ⟨(u, e2.1, r), hmoved, ?_⟩
         simp [create_change_user_command])
    }

/-- C8 amended witness: the amended theorem applied at the
counterexample input (`u2` of the `voB` batch is missing from the
reverse VO map). -/
theorem claim_C8_amended_witness :
    (LogLevel.warning, revMapWarnTag)
      ∈ [((LogLevel.warning, revMapWarnTag) : LogEvent),
         (LogLevel.debug, "%d new users"),
         (LogLevel.debug, "%d removed users"),
         (LogLevel.debug, "%d changed users")]
    ∧ (∀ u ∈ changedUsersVo ["u1", "u2"]
          (clusterUsersAcct
            [⟨"u1", "voB", "c"⟩, ⟨"u2", "voB", "c"⟩] "c") "voB" [],
        ∀ r : String × String,
          ¬ (u, "voB", r) ∈ (userSyncFold
              (reverseVoMapping
                [("voB", ([], ⟨"voB", Institute.gent, 1⟩)),
                 ("voA", (["u1"], ⟨"voA", Institute.gent, 1⟩))])
              ["u1", "u2"]
              (clusterUsersAcct
                [⟨"u1", "voB", "c"⟩, ⟨"u2", "voB", "c"⟩] "c")
              (pySet ((clusterUsersAcct
                [⟨"u1", "voB", "c"⟩, ⟨"u2", "voB", "c"⟩] "c").map
                Prod.fst))
              [("voB", ([], ⟨"voB", Institute.gent, 1⟩)),
               ("voA", (["u1"], ⟨"voA", Institute.gent, 1⟩))]).moved_users)
    ∧ (∀ e2 ∈ [(("voB", ([], ⟨"voB", Institute.gent, 1⟩)) :
          String × (List String × VirtualOrg)),
         ("voA", (["u1"], ⟨"voA", Institute.gent, 1⟩))],
        ((changedUsersVo ["u1", "u2"]
            (clusterUsersAcct
              [⟨"u1", "voB", "c"⟩, ⟨"u2", "voB", "c"⟩] "c") e2.1
            e2.2.1).all
          (fun u => (dictFind (reverseVoMapping
            [("voB", ([], ⟨"voB", Institute.gent, 1⟩)),
             ("voA", (["u1"], ⟨"voA", Institute.gent, 1⟩))]) u).isSome))
          = true →
        ∀ u ∈ changedUsersVo ["u1", "u2"]
            (clusterUsersAcct
              [⟨"u1", "voB", "c"⟩, ⟨"u2", "voB", "c"⟩] "c") e2.1 e2.2.1,
          ∀ r : String × String,
            dictFind (reverseVoMapping
              [("voB", ([], ⟨"voB", Institute.gent, 1⟩)),
               ("voA", (["u1"], ⟨"voA", Institute.gent, 1⟩))]) u
              = some r →
            (u, e2.1, r) ∈ (userSyncFold
                (reverseVoMapping
                  [("voB", ([], ⟨"voB", Institute.gent, 1⟩)),
                   ("voA", (["u1"], ⟨"voA", Institute.gent, 1⟩))])
                ["u1", "u2"]
                (clusterUsersAcct
                  [⟨"u1", "voB", "c"⟩, ⟨"u2", "voB", "c"⟩] "c")
                (pySet ((clusterUsersAcct
                  [⟨"u1", "voB", "c"⟩, ⟨"u2", "voB", "c"⟩] "c").map
                  Prod.fst))
                [("voB", ([], ⟨"voB", Institute.gent, 1⟩)),
                 ("voA", (["u1"], ⟨"voA", Institute.gent, 1⟩))]).moved_users
            ∧ create_add_user_command u r.1 "c" none
                ∈ [create_remove_user_command "u2" "c"]
            ∧ create_default_account_command u r.1 "c"
                ∈ [create_remove_user_command "u2" "c"]
            ∧ [SLURM_SACCT_MGR, "-i", "delete", "user", "name=" ++ u,
                "Account=" ++ e2.1, "Cluster=" ++ "c"]
                ∈ [create_remove_user_command "u2" "c"]
            ∧ create_remove_user_jobs_command u "c" none (some e2.1)
                ∈ [create_remove_user_jobs_command "u2" "c" none none]) :=
  claim_C8_amended_moved_user_batches
    [("voB", ([], ⟨"voB", Institute.gent, 1⟩)),
     ("voA", (["u1"], ⟨"voA", Institute.gent, 1⟩))]
    ["u1", "u2"]
    [⟨"u1", "voB", "c"⟩, ⟨"u2", "voB", "c"⟩]
    ["c"] "c"
    [create_remove_user_jobs_command "u2" "c" none none]
    [create_remove_user_command "u2" "c"]
    [(LogLevel.warning, revMapWarnTag),
     (LogLevel.debug, "%d new users"),
     (LogLevel.debug, "%d removed users"),
     (LogLevel.debug, "%d changed users")]
    ("voB", ([], ⟨"voB", Institute.gent, 1⟩)) "u2"
    (by decide) (by decide) (by rfl) (by decide) (by decide) (by decide)

/-! ## Claim C4 (amended): reconcilers on a converged snapshot

Helpers showing each modelled reconciler's behaviour on an observed
snapshot equal to the desired state: the project-account, VO-account
and user-account reconcilers and both license reconcilers are silent,
while `slurm_project_qos` re-issues exactly one unconditional modify
command per desired project per cluster. -/

/-- When every project's QoS name is already present, the per-project
QoS blocks reduce to exactly one modify command per project. -/
theorem projectQos_flatten (names : List String) (c : String) :
    ∀ ps : List Project,
    (∀ p ∈ ps, (c ++ "-" ++ p.name) ∈ names) →
    (ps.map (projectQosCmds names c)).flatten
      = ps.map (fun p => create_modify_qos_command (c ++ "-" ++ p.name)
          (projectQosSettings p)) := by
  intro ps
  induction ps with
  | nil => intro h; rfl
  | cons p rest ih =>
      intro h
      simp only [List.map_cons, List.flatten_cons,
        ih (fun q hq => h q (List.mem_cons_of_mem _ hq))]
      simp [projectQosCmds, h p (List.mem_cons_self _ _)]

/-- A flat map over per-key emitters that are all silent is empty. -/
theorem flatMap_nil_of_forall {α β : Type} (f : α → List β) :
    ∀ l : List α, (∀ x ∈ l, f x = []) → l.flatMap f = [] := by
  intro l
  induction l with
  | nil => intro h; rfl
  | cons x rest ih =>
      intro h
      simp [List.flatMap_cons, h x (List.mem_cons_self _ _),
        ih (fun y hy => h y (List.mem_cons_of_mem _ hy))]

/-- The resource-update loop of `update_licenses` is silent when every
key resolves on both sides with the same count and force is off. -/
theorem licUpdateCmds_converged (licenses : List (String × License))
    (info : List (String × SlurmResource)) :
    ∀ names : List String,
    (∀ n ∈ names, ∃ lic inf, dictFind licenses n = some lic
      ∧ dictFind info n = some inf ∧ lic.count = inf.Count) →
    licUpdateCmds licenses info false names = .ok [] := by
  intro names
  induction names with
  | nil => intro _; rfl
  | cons n rest ih =>
      intro hnames
      obtain ⟨lic, inf, h1, h2, h3⟩ := hnames n (List.mem_cons_self _ _)
      have htail := ih (fun m hm => hnames m (List.mem_cons_of_mem _ hm))
      simp only [licUpdateCmds, h1, h2, htail]
      simp [Bind.bind, Except.bind, h3]

/-- The reservation-update emitter is silent on a key whose recomputed
quantity already equals the reservation's `Reserved` value. -/
theorem resUpdateEmit_converged {rl : List (String × License)}
    {lics : List (String × SlurmLicense)} {n : String} {lic : License}
    {slic : SlurmLicense} (h1 : dictFind rl n = some lic)
    (h2 : dictFind lics n = some slic)
    (h3 : resUpdateValue lic slic = slic.Reserved) :
    resUpdateEmit rl lics false n = [] := by
  simp [resUpdateEmit, h1, h2, h3]

/-- `update_licenses` on a converged snapshot (no skip markers, same
key sets, matching counts, no force): an empty command plan, with no
error. -/
theorem update_licenses_converged
    (licenses : List (String × License)) (lic_clusters : List String)
    (ignore_resources : List String) (info0 : List SlurmResource)
    (hskipl : skipKeys licenses = [])
    (hk1 : pyDiff (pySet (dictKeys (licResourceInfo ignore_resources
        info0))) (pySet (dictKeys licenses)) = [])
    (hk2 : pyDiff (pySet (dictKeys licenses))
      (pySet (dictKeys (licResourceInfo ignore_resources info0))) = [])
    (hcnt : ∀ k ∈ dictKeys licenses, ∃ lic inf,
      dictFind licenses k = some lic
      ∧ dictFind (licResourceInfo ignore_resources info0) k = some inf
      ∧ lic.count = inf.Count) :
    update_licenses licenses lic_clusters ignore_resources false info0
      = .ok ([], []) := by
  have hup : licUpdateCmds licenses (licResourceInfo ignore_resources
      info0) false (pySorted (pyInter (pySet (dictKeys licenses))
        (pySet (dictKeys (licResourceInfo ignore_resources info0)))))
      = .ok [] := by
    apply licUpdateCmds_converged
    intro n hn
    rw [mem_pySorted] at hn
    have hn2 := (mem_pyInter.mp hn).1
    rw [mem_pySet] at hn2
    exact hcnt n hn2
  have hps : pySorted ([] : List String) = [] := rfl
  simp only [update_licenses, hskipl, eq_self_iff_true, if_true]
  rw [hk1, hk2, hps, hup]
  simp [Bind.bind, Except.bind, licNewCmds, licRemoveCmds]

/-- `update_license_reservations` on a converged snapshot (right
cluster and partition, no skip markers, same key sets, every reserved
quantity already equal to the recomputed one, no force): an empty
command plan and only debug log events, with no error. -/
theorem update_license_reservations_converged
    (licenses : List (String × License)) (cluster partition : String)
    (ignore_reservations : List String) (configClusterName : String)
    (partitions : List String)
    (scontrol_licenses : List (String × SlurmLicense))
    (scontrol_reservations : List (String × SlurmReservation))
    (hclu : cluster = configClusterName) (hpart : partition ∈ partitions)
    (hskipr : skipKeys (rlicensesOf licenses) = [])
    (hr1 : pyDiff (pySet (dictKeys (licenseReservations
        ignore_reservations scontrol_reservations)))
      (pySet (dictKeys (rlicensesOf licenses))) = [])
    (hr2 : pyDiff (pySet (dictKeys (rlicensesOf licenses)))
      (pySet (dictKeys (licenseReservations ignore_reservations
        scontrol_reservations))) = [])
    (hres : ∀ k ∈ dictKeys (rlicensesOf licenses), ∃ lic slic,
      dictFind (rlicensesOf licenses) k = some lic
      ∧ dictFind (scontrolLicenseDict scontrol_licenses) k = some slic
      ∧ resUpdateValue lic slic = slic.Reserved) :
    update_license_reservations licenses cluster partition
      ignore_reservations false configClusterName partitions
      scontrol_licenses scontrol_reservations
      = .ok ([], [],
          (LogLevel.debug, "Existing licenses %s")
          :: (LogLevel.debug, "Existing license reservations %s")
          :: (pySorted (pyInter (pySet (dictKeys (rlicensesOf licenses)))
              (pySet (dictKeys (licenseReservations ignore_reservations
                scontrol_reservations))))).flatMap
              (resUpdateLogOf (rlicensesOf licenses)
                (scontrolLicenseDict scontrol_licenses))) := by
  subst hclu
  have hall : ∀ r ∈ pySorted (pyInter
      (pySet (dictKeys (rlicensesOf licenses)))
      (pySet (dictKeys (licenseReservations ignore_reservations
        scontrol_reservations)))),
      (dictFind (rlicensesOf licenses) r).isSome
      ∧ (dictFind (scontrolLicenseDict scontrol_licenses) r).isSome := by
    intro r hr
    rw [mem_pySorted] at hr
    have hr0 := (mem_pyInter.mp hr).1
    rw [mem_pySet] at hr0
    obtain ⟨lic, slic, h1, h2, -⟩ := hres r hr0
    exact ⟨by rw [h1]; rfl, by rw [h2]; rfl⟩
  have hemit : ∀ r ∈ pySorted (pyInter
      (pySet (dictKeys (rlicensesOf licenses)))
      (pySet (dictKeys (licenseReservations ignore_reservations
        scontrol_reservations)))),
      resUpdateEmit (rlicensesOf licenses)
        (scontrolLicenseDict scontrol_licenses) false r = [] := by
    intro r hr
    rw [mem_pySorted] at hr
    have hr0 := (mem_pyInter.mp hr).1
    rw [mem_pySet] at hr0
    obtain ⟨lic, slic, h1, h2, h3⟩ := hres r hr0
    exact resUpdateEmit_converged h1 h2 h3
  have hupd := resUpdateCmds_eq (rlicensesOf licenses)
    (scontrolLicenseDict scontrol_licenses) false _ hall
  rw [flatMap_nil_of_forall _ _ hemit] at hupd
  have hps : pySorted ([] : List String) = [] := rfl
  simp only [update_license_reservations]
  rw [if_neg (show ¬ cluster ≠ cluster from fun hne => hne rfl)]
  rw [if_neg (show ¬ ¬ partition ∈ partitions from fun hne => hne hpart)]
  simp only [hskipr, eq_self_iff_true, if_true]
  rw [hr1, hr2, hps, hupd]
  simp [Bind.bind, Except.bind, resNewCmds, resRemoveCmds]

/-- The per-VO fold of `slurm_user_accounts` stays at the empty state
when no VO contributes new or changed users. -/
theorem userSyncFold_converged (rev : List (String × (String × String)))
    (active : List String) (cua : List (String × String))
    (cu : List String) :
    ∀ entries : List (String × (List String × VirtualOrg)),
    (∀ e ∈ entries, pyDiff (pyInter e.2.1 active) cu = []) →
    (∀ e ∈ entries, changedUsersVo active cua e.1 e.2.1 = []) →
    userSyncFold rev active cua cu entries = ⟨[], [], [], []⟩ := by
  intro entries
  induction entries with
  | nil => intro _ _; rfl
  | cons e rest ih =>
      intro h1 h2
      have ha := h1 e (List.mem_cons_self _ _)
      have hb := h2 e (List.mem_cons_self _ _)
      have hstep : userSyncStep rev active cua cu ⟨[], [], [], []⟩ e
          = ⟨[], [], [], []⟩ := by
        simp [userSyncStep, ha, hb, pyUnion, pySet]
      have htail := ih (fun x hx => h1 x (List.mem_cons_of_mem _ hx))
        (fun x hx => h2 x (List.mem_cons_of_mem _ hx))
      simp only [userSyncFold, List.foldl_cons, hstep]
      simpa only [userSyncFold] using htail

/-- One cluster of `slurm_user_accounts` on a converged snapshot:
no job-cancel and no other commands. -/
theorem clusterUserSync_converged
    (vo_members : List (String × (List String × VirtualOrg)))
    (active_accounts : List String) (slurm_user_info : List SlurmUser)
    (active_vo_members : List String)
    (reverse_vo_mapping : List (String × (String × String))) (c : String)
    (h1 : ∀ e ∈ vo_members, pyDiff (pyInter e.2.1 active_accounts)
      (pySet ((clusterUsersAcct slurm_user_info c).map Prod.fst)) = [])
    (h2 : ∀ e ∈ vo_members, changedUsersVo active_accounts
      (clusterUsersAcct slurm_user_info c) e.1 e.2.1 = [])
    (h3 : pyDiff (pySet ((clusterUsersAcct slurm_user_info c).map
        Prod.fst)) active_vo_members = []) :
    (clusterUserSync vo_members active_accounts slurm_user_info
      active_vo_members reverse_vo_mapping c).1 = []
    ∧ (clusterUserSync vo_members active_accounts slurm_user_info
        active_vo_members reverse_vo_mapping c).2.1 = [] := by
  have hfold := userSyncFold_converged reverse_vo_mapping active_accounts
    (clusterUsersAcct slurm_user_info c)
    (pySet ((clusterUsersAcct slurm_user_info c).map Prod.fst))
    vo_members h1 h2
  constructor
  · simp [clusterUserSync, hfold, h3]
  · simp [clusterUserSync, hfold, h3]

/-- C4 amended: on an observed snapshot equal to the desired state the
project-account, VO-account and user-account reconcilers and both
license reconcilers produce empty command plans (the license runs
return success, logging only), but `slurm_project_qos` is not
idempotent: its plan is exactly one unconditional modify-QoS command
per desired project per cluster — no add-QoS and no remove-QoS — and
is therefore non-empty whenever there is at least one desired project
and one cluster. -/
theorem claim_C4_amended_converged_snapshot
    (projects : List Project) (slurm_qos_info : List SlurmQos)
    (slurm_account_info acct_info_vo : List SlurmAccount)
    (account_page_vos : List VirtualOrg)
    (clusters protected_accounts institute_default_vos : List String)
    (vo_members : List (String × (List String × VirtualOrg)))
    (active_accounts : List String) (slurm_user_info : List SlurmUser)
    (licenses : List (String × License)) (lic_clusters : List String)
    (ignore_resources : List String) (info0 : List SlurmResource)
    (cluster partition : String) (ignore_reservations : List String)
    (configClusterName : String) (partitions : List String)
    (scontrol_licenses : List (String × SlurmLicense))
    (scontrol_reservations : List (String × SlurmReservation))
    (hqos : ∀ c ∈ clusters, ∀ q,
      q ∈ get_cluster_qos slurm_qos_info c
        ↔ q ∈ projects.map (fun p => c ++ "-" ++ p.name))
    (hacct : ∀ c ∈ clusters, ∀ a,
      a ∈ dictKeys (get_cluster_accounts slurm_account_info c)
        ↔ a ∈ projects.map (fun p => p.name))
    (hvo : ∀ c ∈ clusters, ∀ vo ∈ account_page_vos,
      dictFind (get_cluster_accounts acct_info_vo c) vo.vsc_id
        = some vo.fairshare)
    (husr_new : ∀ c ∈ clusters, ∀ e ∈ vo_members,
      pyDiff (pyInter e.2.1 active_accounts)
        (pySet ((clusterUsersAcct slurm_user_info c).map Prod.fst)) = [])
    (husr_changed : ∀ c ∈ clusters, ∀ e ∈ vo_members,
      changedUsersVo active_accounts (clusterUsersAcct slurm_user_info c)
        e.1 e.2.1 = [])
    (husr_remove : ∀ c ∈ clusters,
      pyDiff (pySet ((clusterUsersAcct slurm_user_info c).map Prod.fst))
        (activeVoMembers vo_members active_accounts) = [])
    (hskipl : skipKeys licenses = [])
    (hlk1 : pyDiff (pySet (dictKeys (licResourceInfo ignore_resources
        info0))) (pySet (dictKeys licenses)) = [])
    (hlk2 : pyDiff (pySet (dictKeys licenses))
      (pySet (dictKeys (licResourceInfo ignore_resources info0))) = [])
    (hlcnt : ∀ k ∈ dictKeys licenses, ∃ lic inf,
      dictFind licenses k = some lic
      ∧ dictFind (licResourceInfo ignore_resources info0) k = some inf
      ∧ lic.count = inf.Count)
    (hclu : cluster = configClusterName)
    (hpart : partition ∈ partitions)
    (hskipr : skipKeys (rlicensesOf licenses) = [])
    (hrk1 : pyDiff (pySet (dictKeys (licenseReservations
        ignore_reservations scontrol_reservations)))
      (pySet (dictKeys (rlicensesOf licenses))) = [])
    (hrk2 : pyDiff (pySet (dictKeys (rlicensesOf licenses)))
      (pySet (dictKeys (licenseReservations ignore_reservations
        scontrol_reservations))) = [])
    (hrres : ∀ k ∈ dictKeys (rlicensesOf licenses), ∃ lic slic,
      dictFind (rlicensesOf licenses) k = some lic
      ∧ dictFind (scontrolLicenseDict scontrol_licenses) k = some slic
      ∧ resUpdateValue lic slic = slic.Reserved) :
    slurm_project_accounts projects slurm_account_info clusters
      protected_accounts = []
    ∧ slurm_vo_accounts account_page_vos acct_info_vo clusters
        institute_default_vos = []
    ∧ slurm_project_qos projects slurm_qos_info clusters
        = (clusters.map (fun c => projects.map (fun p =>
            create_modify_qos_command (c ++ "-" ++ p.name)
              (projectQosSettings p)))).flatten
    ∧ (projects ≠ [] → clusters ≠ [] →
        slurm_project_qos projects slurm_qos_info clusters ≠ [])
    ∧ ((slurm_user_accounts vo_members active_accounts slurm_user_info
          clusters).1 = []
       ∧ (slurm_user_accounts vo_members active_accounts slurm_user_info
           clusters).2.1 = [])
    ∧ update_licenses licenses lic_clusters ignore_resources false info0
        = .ok ([], [])
    ∧ ∃ logs, update_license_reservations licenses cluster partition
        ignore_reservations false configClusterName partitions
        scontrol_licenses scontrol_reservations = .ok ([], [], logs) := by
  have hqos_eq : slurm_project_qos projects slurm_qos_info clusters
      = (clusters.map (fun c => projects.map (fun p =>
          create_modify_qos_command (c ++ "-" ++ p.name)
            (projectQosSettings p)))).flatten := by
    simp only [slurm_project_qos]
    congr 1
    apply List.map_congr_left
    intro c hc
    have hrem : pyDiff (pySet (get_cluster_qos slurm_qos_info c))
        (pySet (projects.map (fun p => c ++ "-" ++ p.name))) = [] := by
      apply List.filter_eq_nil_iff.mpr
      intro q hq
      simp only [pySet, List.mem_dedup] at hq
      simp [mem_pySet, (hqos c hc q).mp hq]
    simp only [slurmProjectQosCluster, hrem, List.map_nil, List.append_nil]
    apply projectQos_flatten
    intro p hp
    rw [mem_pySet]
    exact (hqos c hc _).mpr (List.mem_map_of_mem _ hp)
  refine ⟨?_, ?_, hqos_eq, ?_, ?_, ?_, ?_⟩
  · -- project accounts: both diffs are empty on a converged snapshot
    simp only [slurm_project_accounts, List.flatten_eq_nil_iff]
    intro seg hseg
    rcases List.mem_map.mp hseg with ⟨c, hc, rfl⟩
    have hdiff1 : pyDiff (pySet (projects.map (fun p => p.name)))
        (pySet (dictKeys (get_cluster_accounts slurm_account_info c)))
        = [] := by
      apply List.filter_eq_nil_iff.mpr
      intro a ha
      simp only [pySet, List.mem_dedup] at ha
      simp [mem_pySet, (hacct c hc a).mpr ha]
    have hdiff2 : pyDiff
        (pySet (dictKeys (get_cluster_accounts slurm_account_info c)))
        (pySet (projects.map (fun p => p.name))) = [] := by
      apply List.filter_eq_nil_iff.mpr
      intro a ha
      simp only [pySet, List.mem_dedup] at ha
      simp [mem_pySet, (hacct c hc a).mp ha]
    simp [slurmProjectAccountsCluster, hdiff1, hdiff2]
  · -- VO accounts: every per-VO block is empty
    simp only [slurm_vo_accounts, List.flatten_eq_nil_iff]
    intro seg hseg
    rcases List.mem_map.mp hseg with ⟨c, hc, rfl⟩
    simp only [slurmVoAccountsCluster, List.flatten_eq_nil_iff]
    intro blk hblk
    rcases List.mem_map.mp hblk with ⟨vo, hvo2, rfl⟩
    by_cases hdef : vo.vsc_id ∈ institute_default_vos
    · simp [voAccountCmds, hdef]
    · simp [voAccountCmds, hdef, hvo c hc vo hvo2]
  · -- the QoS plan is non-empty on non-empty inputs
    intro hp hc hnil
    obtain ⟨c, hcmem⟩ := List.exists_mem_of_ne_nil _ hc
    obtain ⟨p, hpmem⟩ := List.exists_mem_of_ne_nil _ hp
    have hmem : create_modify_qos_command (c ++ "-" ++ p.name)
        (projectQosSettings p)
        ∈ slurm_project_qos projects slurm_qos_info clusters := by
      rw [hqos_eq, List.mem_flatten]
      exact ⟨_, List.mem_map_of_mem _ hcmem, List.mem_map_of_mem _ hpmem⟩
    rw [hnil] at hmem
    exact absurd hmem (List.not_mem_nil _)
  · -- user accounts: every cluster is silent
    have h5 : ∀ c ∈ clusters,
        (clusterUserSync vo_members active_accounts slurm_user_info
          (activeVoMembers vo_members active_accounts)
          (reverseVoMapping vo_members) c).1 = []
        ∧ (clusterUserSync vo_members active_accounts slurm_user_info
            (activeVoMembers vo_members active_accounts)
            (reverseVoMapping vo_members) c).2.1 = [] := by
      intro c hc
      exact clusterUserSync_converged vo_members active_accounts
        slurm_user_info (activeVoMembers vo_members active_accounts)
        (reverseVoMapping vo_members) c (husr_new c hc)
        (husr_changed c hc) (husr_remove c hc)
    constructor
    · simp only [slurm_user_accounts_parts, List.flatten_eq_nil_iff]
      intro seg hseg
      rcases List.mem_map.mp hseg with ⟨c, hc, rfl⟩
      exact (h5 c hc).1
    · simp only [slurm_user_accounts_parts, List.flatten_eq_nil_iff]
      intro seg hseg
      rcases List.mem_map.mp hseg with ⟨c, hc, rfl⟩
      exact (h5 c hc).2
  · exact update_licenses_converged licenses lic_clusters
      ignore_resources info0 hskipl hlk1 hlk2 hlcnt
  · exact ⟨_, update_license_reservations_converged licenses cluster
      partition ignore_reservations configClusterName partitions
      scontrol_licenses scontrol_reservations hclu hpart hskipr hrk1
      hrk2 hrres⟩

/-- C4 amended witness: a fully converged scenario — one project with
its QoS and account in place, one VO with the right fairshare, one VO
member already on the cluster with the right default account, one
license resource with the right count, and one license reservation
with the right reserved quantity. -/
theorem claim_C4_amended_converged_witness :
    slurm_project_accounts [⟨"p", 1, 0⟩] [⟨"p", "c", 1⟩] ["c"] [] = []
    ∧ slurm_vo_accounts [⟨"gvo1", Institute.gent, 10⟩]
        [⟨"gvo1", "c", 10⟩] ["c"] [] = []
    ∧ slurm_project_qos [⟨"p", 1, 0⟩] [⟨"c-p", "cpu=60,gres/gpu=1"⟩] ["c"]
        = ((["c"] : List String).map (fun c =>
            ([⟨"p", 1, 0⟩] : List Project).map (fun p =>
              create_modify_qos_command (c ++ "-" ++ p.name)
                (projectQosSettings p)))).flatten
    ∧ slurm_project_qos [⟨"p", 1, 0⟩] [⟨"c-p", "cpu=60,gres/gpu=1"⟩] ["c"]
        ≠ []
    ∧ ((slurm_user_accounts
          [("gvo1", (["u1"], ⟨"gvo1", Institute.gent, 10⟩))] ["u1"]
          [⟨"u1", "gvo1", "c"⟩] ["c"]).1 = []
       ∧ (slurm_user_accounts
          [("gvo1", (["u1"], ⟨"gvo1", Institute.gent, 10⟩))] ["u1"]
          [⟨"u1", "gvo1", "c"⟩] ["c"]).2.1 = [])
    ∧ update_licenses
        [("lic1@srv", ⟨"lic1", "srv", "flexlm", 10, 5, false, ""⟩)]
        ["c"] [] false [⟨"lic1", "srv", "License", 10, "flexlm"⟩]
        = .ok ([], [])
    ∧ ∃ logs, update_license_reservations
        [("lic1@srv", ⟨"lic1", "srv", "flexlm", 10, 5, false, ""⟩)]
        "mycluster" "part" [] false "mycluster" ["part"]
        [("lic1@srv", ⟨"lic1@srv", 10, 2, 8, 3⟩)]
        [("external_license_lic1@srv",
          ⟨"external_license_lic1@srv", some "lic1@srv:3"⟩)]
        = .ok ([], [], logs) := by
  have h := claim_C4_amended_converged_snapshot
    [⟨"p", 1, 0⟩] [⟨"c-p", "cpu=60,gres/gpu=1"⟩] [⟨"p", "c", 1⟩]
    [⟨"gvo1", "c", 10⟩] [⟨"gvo1", Institute.gent, 10⟩] ["c"] [] []
    [("gvo1", (["u1"], ⟨"gvo1", Institute.gent, 10⟩))] ["u1"]
    [⟨"u1", "gvo1", "c"⟩]
    [("lic1@srv", ⟨"lic1", "srv", "flexlm", 10, 5, false, ""⟩)] ["c"] []
    [⟨"lic1", "srv", "License", 10, "flexlm"⟩]
    "mycluster" "part" [] "mycluster" ["part"]
    [("lic1@srv", ⟨"lic1@srv", 10, 2, 8, 3⟩)]
    [("external_license_lic1@srv",
      ⟨"external_license_lic1@srv", some "lic1@srv:3"⟩)]
    (by
      intro c hc q
      simp only [List.mem_singleton] at hc
      subst hc
      have h1 : get_cluster_qos [⟨"c-p", "cpu=60,gres/gpu=1"⟩] "c"
          = ["c-p"] := by decide
      have h2 : List.map (fun p => "c" ++ "-" ++ p.name)
          [(⟨"p", 1, 0⟩ : Project)] = ["c-p"] := by decide
      rw [h1, h2])
    (by
      intro c hc a
      simp only [List.mem_singleton] at hc
      subst hc
      have h1 : dictKeys (get_cluster_accounts [⟨"p", "c", 1⟩] "c")
          = ["p"] := by decide
      have h2 : List.map (fun p => p.name)
          [(⟨"p", 1, 0⟩ : Project)] = ["p"] := by decide
      rw [h1, h2])
    (by decide) (by decide) (by decide) (by decide)
    (by decide) (by decide) (by decide)
    (by
      intro k hk
      have hkeys : dictKeys [("lic1@srv",
          (⟨"lic1", "srv", "flexlm", 10, 5, false, ""⟩ : License))]
          = ["lic1@srv"] := by decide
      rw [hkeys] at hk
      simp only [List.mem_singleton] at hk
      subst hk
      exact ⟨⟨"lic1", "srv", "flexlm", 10, 5, false, ""⟩,
        ⟨"lic1", "srv", "License", 10, "flexlm"⟩,
        by decide, by decide, by decide⟩)
    rfl (by decide) (by decide) (by decide) (by decide)
    (by
      intro k hk
      have hkeys : dictKeys (rlicensesOf [("lic1@srv",
          (⟨"lic1", "srv", "flexlm", 10, 5, false, ""⟩ : License))])
          = ["external_license_lic1@srv"] := by decide
      rw [hkeys] at hk
      simp only [List.mem_singleton] at hk
      subst hk
      exact ⟨⟨"lic1", "srv", "flexlm", 10, 5, false, "lic1@srv"⟩,
        ⟨"lic1@srv", 10, 2, 8, 3⟩,
        by decide, by decide, by decide⟩)
  exact ⟨h.1, h.2.1, h.2.2.1, h.2.2.2.1 (by decide) (by decide),
    h.2.2.2.2.1, h.2.2.2.2.2.1, h.2.2.2.2.2.2⟩

/-! ## Claim C1: project-account reconciliation -/

theorem cancelPendingCmd_inj {a1 a2 c1 c2 : String}
    (h : cancelPendingCmd a1 c1 = cancelPendingCmd a2 c2) :
    a1 = a2 ∧ c1 = c2 := by
  simp only [cancelPendingCmd, List.cons.injEq] at h
  obtain ⟨-, hc, ha, -⟩ := h
  exact ⟨str_append_left_cancel ha, str_append_left_cancel hc⟩

theorem cancelSuspendedCmd_inj {a1 a2 c1 c2 : String}
    (h : cancelSuspendedCmd a1 c1 = cancelSuspendedCmd a2 c2) :
    a1 = a2 ∧ c1 = c2 := by
  simp only [cancelSuspendedCmd, List.cons.injEq] at h
  obtain ⟨-, hc, ha, -⟩ := h
  exact ⟨str_append_left_cancel ha, str_append_left_cancel hc⟩

theorem remove_account_cmd_inj {a1 a2 c1 c2 : String}
    (h : create_remove_account_command a1 c1
      = create_remove_account_command a2 c2) :
    a1 = a2 ∧ c1 = c2 := by
  simp only [create_remove_account_command, List.cons.injEq] at h
  obtain ⟨-, -, -, -, ha, hc, -⟩ := h
  exact ⟨str_append_left_cancel ha, str_append_left_cancel hc⟩

theorem cancelPending_ne_cancelSuspended {a1 a2 c1 c2 : String} :
    cancelPendingCmd a1 c1 ≠ cancelSuspendedCmd a2 c2 := by
  intro h
  simp only [cancelPendingCmd, cancelSuspendedCmd, List.cons.injEq] at h
  obtain ⟨-, -, -, hbad, -⟩ := h
  exact absurd hbad (by decide)

theorem cancelPending_ne_remove_account {a1 a2 c1 c2 : String} :
    cancelPendingCmd a1 c1 ≠ create_remove_account_command a2 c2 := by
  intro h
  have := congrArg List.length h
  simp [cancelPendingCmd, create_remove_account_command] at this

theorem cancelSuspended_ne_remove_account {a1 a2 c1 c2 : String} :
    cancelSuspendedCmd a1 c1 ≠ create_remove_account_command a2 c2 := by
  intro h
  have := congrArg List.length h
  simp [cancelSuspendedCmd, create_remove_account_command] at this

theorem projectAdd_ne_cancelPending {p1 a2 c1 c2 : String} :
    projectAddAccountCmd c1 p1 ≠ cancelPendingCmd a2 c2 := by
  intro h
  have := congrArg List.length h
  simp [projectAddAccountCmd, create_add_account_command,
    cancelPendingCmd] at this

theorem projectAdd_ne_cancelSuspended {p1 a2 c1 c2 : String} :
    projectAddAccountCmd c1 p1 ≠ cancelSuspendedCmd a2 c2 := by
  intro h
  have := congrArg List.length h
  simp [projectAddAccountCmd, create_add_account_command,
    cancelSuspendedCmd] at this

theorem projectAdd_ne_remove_account {p1 a2 c1 c2 : String} :
    projectAddAccountCmd c1 p1 ≠ create_remove_account_command a2 c2 := by
  intro h
  have := congrArg List.length h
  simp [projectAddAccountCmd, create_add_account_command,
    create_remove_account_command] at this

theorem projectAddAccountCmd_inj {c1 c2 p1 p2 : String}
    (h : projectAddAccountCmd c1 p1 = projectAddAccountCmd c2 p2) :
    p1 = p2 ∧ c1 = c2 :=
  add_account_cmd_inj h

theorem projectRemoveCmds_eq (protected_accounts : List String)
    (c p : String) :
    projectRemoveCmds protected_accounts c p
      = if ¬ p ∈ protected_accounts then
          [cancelPendingCmd p c, cancelSuspendedCmd p c,
           create_remove_account_command p c]
        else [] := rfl

/-- Every command of one cluster segment of `slurm_project_accounts`
is an add for a missing desired project or a cancel/cancel/remove for a
vanished unprotected account. -/
theorem mem_spaCluster {cmd : Cmd} {projects : List Project}
    {accts : List SlurmAccount} {protected_accounts : List String}
    {c : String}
    (h : cmd ∈ slurmProjectAccountsCluster projects accts
      protected_accounts c) :
    (∃ p ∈ pyDiff (pySet (projects.map Project.name))
        (pySet (dictKeys (get_cluster_accounts accts c))),
      cmd = projectAddAccountCmd c p)
    ∨ (∃ p ∈ pyDiff (pySet (dictKeys (get_cluster_accounts accts c)))
          (pySet (projects.map Project.name)),
        ¬ p ∈ protected_accounts
        ∧ (cmd = cancelPendingCmd p c ∨ cmd = cancelSuspendedCmd p c
           ∨ cmd = create_remove_account_command p c)) := by
  simp only [slurmProjectAccountsCluster, List.mem_append] at h
  rcases h with h | h
  · rcases List.mem_map.mp h with ⟨p, hp, rfl⟩
    exact Or.inl ⟨p, (List.mem_filter.mp hp).1, rfl⟩
  · rw [List.mem_flatten] at h
    obtain ⟨blk, hblk, hcmd⟩ := h
    rcases List.mem_map.mp hblk with ⟨p, hp, rfl⟩
    rw [projectRemoveCmds_eq] at hcmd
    split at hcmd
    · simp only [List.mem_cons, List.not_mem_nil, or_false] at hcmd
      refine Or.inr ⟨p, hp, by assumption, ?_⟩
      tauto
    · simp at hcmd

/-- When a target command can only arise from the segment of cluster
`c`, its count in the whole `slurm_project_accounts` output is its
count in that segment. -/
theorem spaOut_count (projects : List Project) (accts : List SlurmAccount)
    (clusters protected_accounts : List String) (c : String) (t : Cmd)
    (hclusters : clusters.Nodup) (hc : c ∈ clusters)
    (hshape : ∀ c2 ∈ clusters,
      t ∈ slurmProjectAccountsCluster projects accts protected_accounts c2
      → c2 = c) :
    (slurm_project_accounts projects accts clusters
      protected_accounts).count t
      = (slurmProjectAccountsCluster projects accts protected_accounts
          c).count t := by
  obtain ⟨l1, l2, rfl⟩ := List.append_of_mem hc
  have hfacts := hclusters
  rw [List.nodup_append] at hfacts
  obtain ⟨-, hn2, hdisj⟩ := hfacts
  have hcl1 : ¬ c ∈ l1 := fun hmem => hdisj hmem (List.mem_cons_self c l2)
  simp only [slurm_project_accounts, List.map_append, List.map_cons,
    List.flatten_append, List.flatten_cons, List.count_append]
  have hz1 : ((l1.map (slurmProjectAccountsCluster projects accts
      protected_accounts)).flatten).count t = 0 := by
    apply List.count_eq_zero.mpr
    intro hmem
    rw [List.mem_flatten] at hmem
    obtain ⟨seg, hseg, hts⟩ := hmem
    obtain ⟨c2, hc2, rfl⟩ := List.mem_map.mp hseg
    have hceq := hshape c2 (List.mem_append.mpr (Or.inl hc2)) hts
    exact hcl1 (hceq ▸ hc2)
  have hz2 : ((l2.map (slurmProjectAccountsCluster projects accts
      protected_accounts)).flatten).count t = 0 := by
    apply List.count_eq_zero.mpr
    intro hmem
    rw [List.mem_flatten] at hmem
    obtain ⟨seg, hseg, hts⟩ := hmem
    obtain ⟨c2, hc2, rfl⟩ := List.mem_map.mp hseg
    have hceq := hshape c2
      (List.mem_append.mpr (Or.inr (List.mem_cons_of_mem _ hc2))) hts
    exact (List.nodup_cons.mp hn2).1 (hceq ▸ hc2)
  rw [hz1, hz2]
  omega

/-- Commands of another cluster's segment never equal the cancel or
remove commands of `(p, c)`. -/
theorem spa_other_cluster_avoid {projects : List Project}
    {accts : List SlurmAccount} {protected_accounts : List String}
    {c2 c p : String} (hne : ¬ c2 = c) {cmd : Cmd}
    (h : cmd ∈ slurmProjectAccountsCluster projects accts
      protected_accounts c2) :
    ¬ cmd = cancelPendingCmd p c ∧ ¬ cmd = cancelSuspendedCmd p c
    ∧ ¬ cmd = create_remove_account_command p c := by
  rcases mem_spaCluster h with ⟨p2, -, rfl⟩ | ⟨p2, -, -, hcase⟩
  · exact ⟨projectAdd_ne_cancelPending, projectAdd_ne_cancelSuspended,
      projectAdd_ne_remove_account⟩
  · rcases hcase with rfl | rfl | rfl
    · refine ⟨?_, ?_, ?_⟩
      · exact fun heq => hne (cancelPendingCmd_inj heq).2
      · exact fun heq => cancelPending_ne_cancelSuspended heq
      · exact fun heq => cancelPending_ne_remove_account heq
    · refine ⟨?_, ?_, ?_⟩
      · exact fun heq => cancelPending_ne_cancelSuspended heq.symm
      · exact fun heq => hne (cancelSuspendedCmd_inj heq).2
      · exact fun heq => cancelSuspended_ne_remove_account heq
    · refine ⟨?_, ?_, ?_⟩
      · exact fun heq => cancelPending_ne_remove_account heq.symm
      · exact fun heq => cancelSuspended_ne_remove_account heq.symm
      · exact fun heq => hne (remove_account_cmd_inj heq).2

/-- The whole `slurm_project_accounts` output splits around the
cancel-cancel-remove triple of one vanished unprotected account, and
no command outside the triple equals any of the three. -/
theorem spa_out_remove_split (projects : List Project)
    (accts : List SlurmAccount)
    (clusters protected_accounts : List String) (c p : String)
    (hclusters : clusters.Nodup) (hc : c ∈ clusters)
    (hp : p ∈ pyDiff (pySet (dictKeys (get_cluster_accounts accts c)))
      (pySet (projects.map Project.name)))
    (hprot : ¬ p ∈ protected_accounts) :
    ∃ s1 s2 : List Cmd,
      slurm_project_accounts projects accts clusters protected_accounts
        = s1 ++ cancelPendingCmd p c :: cancelSuspendedCmd p c ::
            create_remove_account_command p c :: s2
      ∧ (∀ cmd, cmd ∈ s1 ∨ cmd ∈ s2 →
          ¬ cmd = cancelPendingCmd p c ∧ ¬ cmd = cancelSuspendedCmd p c
          ∧ ¬ cmd = create_remove_account_command p c) := by
  obtain ⟨L1, L2, rfl⟩ := List.append_of_mem hc
  have hfacts := hclusters
  rw [List.nodup_append] at hfacts
  obtain ⟨-, hn2, hdisj⟩ := hfacts
  have hcl1 : ¬ c ∈ L1 := fun hmem => hdisj hmem (List.mem_cons_self c L2)
  have hcl2 : ¬ c ∈ L2 := (List.nodup_cons.mp hn2).1
  obtain ⟨r1, r2, hrsplit⟩ := List.append_of_mem hp
  have hrn := nodup_pyDiff
    (pySet (dictKeys (get_cluster_accounts accts c)))
    (pySet (projects.map Project.name))
  rw [hrsplit, List.nodup_append] at hrn
  obtain ⟨-, hrn2, hrdisj⟩ := hrn
  have hpr1 : ¬ p ∈ r1 := fun hmem => hrdisj hmem (List.mem_cons_self p r2)
  have hpr2 : ¬ p ∈ r2 := (List.nodup_cons.mp hrn2).1
  -- the segment of cluster `c`, split around the triple of `p`
  have hseg : slurmProjectAccountsCluster projects accts protected_accounts
      c
      = ((pyDiff (pySet (projects.map Project.name))
          (pySet (dictKeys (get_cluster_accounts accts c)))).filter
          (fun q => ¬ q ∈ pySet (dictKeys (get_cluster_accounts accts c)))
         ).map (projectAddAccountCmd c)
        ++ ((r1.map (projectRemoveCmds protected_accounts c)).flatten
        ++ (cancelPendingCmd p c :: cancelSuspendedCmd p c ::
            create_remove_account_command p c ::
            (r2.map (projectRemoveCmds protected_accounts c)).flatten)) := by
    simp only [slurmProjectAccountsCluster, hrsplit, List.map_append,
      List.map_cons, List.flatten_append, List.flatten_cons,
      projectRemoveCmds_eq protected_accounts c p, if_pos hprot,
      List.append_assoc, List.cons_append, List.nil_append]
  refine ⟨(L1.map (slurmProjectAccountsCluster projects accts
      protected_accounts)).flatten
    ++ (((pyDiff (pySet (projects.map Project.name))
        (pySet (dictKeys (get_cluster_accounts accts c)))).filter
        (fun q => ¬ q ∈ pySet (dictKeys (get_cluster_accounts accts c)))
       ).map (projectAddAccountCmd c)
      ++ (r1.map (projectRemoveCmds protected_accounts c)).flatten),
    (r2.map (projectRemoveCmds protected_accounts c)).flatten
      ++ (L2.map (slurmProjectAccountsCluster projects accts
          protected_accounts)).flatten, ?_, ?_⟩
  · simp only [slurm_project_accounts, List.map_append, List.map_cons,
      List.flatten_append, List.flatten_cons, hseg, List.append_assoc,
      List.cons_append, List.nil_append]
  · intro cmd hcmd
    have havoid_same : ∀ p2, ¬ p2 = p → ¬ p2 ∈ protected_accounts →
        (cmd = cancelPendingCmd p2 c ∨ cmd = cancelSuspendedCmd p2 c
          ∨ cmd = create_remove_account_command p2 c) →
        ¬ cmd = cancelPendingCmd p c ∧ ¬ cmd = cancelSuspendedCmd p c
        ∧ ¬ cmd = create_remove_account_command p c := by
      rintro p2 hne - (rfl | rfl | rfl)
      · refine ⟨?_, ?_, ?_⟩
        · exact fun heq => hne (cancelPendingCmd_inj heq).1
        · exact fun heq => cancelPending_ne_cancelSuspended heq
        · exact fun heq => cancelPending_ne_remove_account heq
      · refine ⟨?_, ?_, ?_⟩
        · exact fun heq => cancelPending_ne_cancelSuspended heq.symm
        · exact fun heq => hne (cancelSuspendedCmd_inj heq).1
        · exact fun heq => cancelSuspended_ne_remove_account heq
      · refine ⟨?_, ?_, ?_⟩
        · exact fun heq => cancelPending_ne_remove_account heq.symm
        · exact fun heq => cancelSuspended_ne_remove_account heq.symm
        · exact fun heq => hne (remove_account_cmd_inj heq).1
    have hremblock : ∀ (r : List String), (¬ p ∈ r) →
        cmd ∈ (r.map (projectRemoveCmds protected_accounts c)).flatten →
        ¬ cmd = cancelPendingCmd p c ∧ ¬ cmd = cancelSuspendedCmd p c
        ∧ ¬ cmd = create_remove_account_command p c := by
      intro r hpr hmem
      rw [List.mem_flatten] at hmem
      obtain ⟨blk, hblk, hcmdb⟩ := hmem
      rcases List.mem_map.mp hblk with ⟨p2, hp2, rfl⟩
      rw [projectRemoveCmds_eq] at hcmdb
      split at hcmdb
      · simp only [List.mem_cons, List.not_mem_nil, or_false] at hcmdb
        exact havoid_same p2 (fun heq => hpr (heq ▸ hp2)) (by assumption)
          hcmdb
      · simp at hcmdb
    have hother : ∀ (L : List String), (¬ c ∈ L) →
        cmd ∈ (L.map (slurmProjectAccountsCluster projects accts
          protected_accounts)).flatten →
        ¬ cmd = cancelPendingCmd p c ∧ ¬ cmd = cancelSuspendedCmd p c
        ∧ ¬ cmd = create_remove_account_command p c := by
      intro L hcL hmem
      rw [List.mem_flatten] at hmem
      obtain ⟨seg, hseg2, hcmds⟩ := hmem
      rcases List.mem_map.mp hseg2 with ⟨c2, hc2, rfl⟩
      exact spa_other_cluster_avoid
        (fun heq => hcL (by rw [← heq]; exact hc2)) hcmds
    have hadds : cmd ∈ ((pyDiff (pySet (projects.map Project.name))
        (pySet (dictKeys (get_cluster_accounts accts c)))).filter
        (fun q => ¬ q ∈ pySet (dictKeys (get_cluster_accounts accts c)))
       ).map (projectAddAccountCmd c) →
        ¬ cmd = cancelPendingCmd p c ∧ ¬ cmd = cancelSuspendedCmd p c
        ∧ ¬ cmd = create_remove_account_command p c := by
      intro hmem
      rcases List.mem_map.mp hmem with ⟨p2, -, rfl⟩
      exact ⟨projectAdd_ne_cancelPending, projectAdd_ne_cancelSuspended,
        projectAdd_ne_remove_account⟩
    rcases hcmd with hcmd | hcmd
    · rcases List.mem_append.mp hcmd with hm | hm
      · exact hother L1 hcl1 hm
      · rcases List.mem_append.mp hm with hm2 | hm2
        · exact hadds hm2
        · exact hremblock r1 hpr1 hm2
    · rcases List.mem_append.mp hcmd with hm | hm
      · exact hremblock r2 hpr2 hm
      · exact hother L2 hcl2 hm

/-- C1: on a duplicate-free cluster list, for each cluster `c`:
every project name in desired-minus-observed yields exactly one
add-account command; every observed account name absent from the
desired set and not protected yields exactly one PENDING job-cancel,
exactly one SUSPENDED job-cancel and exactly one remove-account
command, and both job-cancel commands appear strictly before that
remove-account command in the returned list. -/
theorem claim_C1_project_account_reconciliation (projects : List Project)
    (accts : List SlurmAccount)
    (clusters protected_accounts : List String) (c p : String)
    (hclusters : clusters.Nodup) (hc : c ∈ clusters) :
    (p ∈ pyDiff (pySet (projects.map Project.name))
        (pySet (dictKeys (get_cluster_accounts accts c))) →
      (slurm_project_accounts projects accts clusters
        protected_accounts).count (projectAddAccountCmd c p) = 1)
    ∧ (p ∈ pyDiff (pySet (dictKeys (get_cluster_accounts accts c)))
          (pySet (projects.map Project.name)) →
       ¬ p ∈ protected_accounts →
       (slurm_project_accounts projects accts clusters
          protected_accounts).count (cancelPendingCmd p c) = 1
       ∧ (slurm_project_accounts projects accts clusters
            protected_accounts).count (cancelSuspendedCmd p c) = 1
       ∧ (slurm_project_accounts projects accts clusters
            protected_accounts).count
            (create_remove_account_command p c) = 1
       ∧ precedes (cancelPendingCmd p c)
           (create_remove_account_command p c)
           (slurm_project_accounts projects accts clusters
             protected_accounts)
       ∧ precedes (cancelSuspendedCmd p c)
           (create_remove_account_command p c)
           (slurm_project_accounts projects accts clusters
             protected_accounts)) := by
  constructor
  · intro hp
    have hshape : ∀ c2 ∈ clusters,
        projectAddAccountCmd c p ∈ slurmProjectAccountsCluster projects
          accts protected_accounts c2 → c2 = c := by
      intro c2 _ hmem
      rcases mem_spaCluster hmem with ⟨p2, -, heq⟩ | ⟨p2, -, -, hcase⟩
      · exact (projectAddAccountCmd_inj heq).2.symm
      · rcases hcase with heq | heq | heq
        · exact absurd heq projectAdd_ne_cancelPending
        · exact absurd heq projectAdd_ne_cancelSuspended
        · exact absurd heq projectAdd_ne_remove_account
    rw [spaOut_count projects accts clusters protected_accounts c _
      hclusters hc hshape]
    simp only [slurmProjectAccountsCluster, List.count_append]
    have h1 : (((pyDiff (pySet (projects.map Project.name))
        (pySet (dictKeys (get_cluster_accounts accts c)))).filter
        (fun q => ¬ q ∈ pySet (dictKeys (get_cluster_accounts accts c)))
       ).map (projectAddAccountCmd c)).count (projectAddAccountCmd c p)
        = 1 := by
      have hmapcount : ∀ l : List String,
          (l.map (projectAddAccountCmd c)).count (projectAddAccountCmd c p)
            = l.count p := by
        intro l
        induction l with
        | nil => rfl
        | cons q rest ih =>
            by_cases hq : q = p
            · subst hq
              simp [List.count_cons, ih]
            · have hne : ¬ projectAddAccountCmd c q
                  = projectAddAccountCmd c p :=
                fun heq => hq (projectAddAccountCmd_inj heq).1
              simp [List.count_cons, ih, hq, hne]
      rw [hmapcount]
      apply List.count_eq_one_of_mem ((nodup_pyDiff _ _).filter _)
      rw [List.mem_filter]
      exact ⟨hp, by simp [(mem_pyDiff.mp hp).2]⟩
    have h2 : (((pyDiff
        (pySet (dictKeys (get_cluster_accounts accts c)))
        (pySet (projects.map Project.name))).map
        (projectRemoveCmds protected_accounts c)).flatten).count
        (projectAddAccountCmd c p) = 0 := by
      apply List.count_eq_zero.mpr
      intro hmem
      rw [List.mem_flatten] at hmem
      obtain ⟨blk, hblk, hcmdb⟩ := hmem
      rcases List.mem_map.mp hblk with ⟨p2, -, rfl⟩
      rw [projectRemoveCmds_eq] at hcmdb
      split at hcmdb
      · simp only [List.mem_cons, List.not_mem_nil, or_false] at hcmdb
        rcases hcmdb with heq | heq | heq
        · exact projectAdd_ne_cancelPending heq
        · exact projectAdd_ne_cancelSuspended heq
        · exact projectAdd_ne_remove_account heq
      · simp at hcmdb
    rw [h1, h2]
  · intro hp hprot
    obtain ⟨s1, s2, hsplit, havoid⟩ := spa_out_remove_split projects accts
      clusters protected_accounts c p hclusters hc hp hprot
    have hs1 : ∀ t, (∀ cmd ∈ s1, ¬ cmd = t) → s1.count t = 0 :=
      fun t ht => List.count_eq_zero.mpr (fun hmem => ht _ hmem rfl)
    have hs2 : ∀ t, (∀ cmd ∈ s2, ¬ cmd = t) → s2.count t = 0 :=
      fun t ht => List.count_eq_zero.mpr (fun hmem => ht _ hmem rfl)
    have hcntP : (slurm_project_accounts projects accts clusters
        protected_accounts).count (cancelPendingCmd p c) = 1 := by
      rw [hsplit, List.count_append,
        hs1 _ (fun cmd hm => (havoid cmd (Or.inl hm)).1),
        List.count_cons_self,
        List.count_cons_of_ne (fun heq =>
          cancelPending_ne_cancelSuspended heq),
        List.count_cons_of_ne (fun heq =>
          cancelPending_ne_remove_account heq),
        hs2 _ (fun cmd hm => (havoid cmd (Or.inr hm)).1)]
    have hcntS : (slurm_project_accounts projects accts clusters
        protected_accounts).count (cancelSuspendedCmd p c) = 1 := by
      rw [hsplit, List.count_append,
        hs1 _ (fun cmd hm => (havoid cmd (Or.inl hm)).2.1),
        List.count_cons_of_ne (fun heq =>
          cancelPending_ne_cancelSuspended heq.symm),
        List.count_cons_self,
        List.count_cons_of_ne (fun heq =>
          cancelSuspended_ne_remove_account heq),
        hs2 _ (fun cmd hm => (havoid cmd (Or.inr hm)).2.1)]
    have hcntR : (slurm_project_accounts projects accts clusters
        protected_accounts).count (create_remove_account_command p c)
        = 1 := by
      rw [hsplit, List.count_append,
        hs1 _ (fun cmd hm => (havoid cmd (Or.inl hm)).2.2),
        List.count_cons_of_ne (fun heq =>
          cancelPending_ne_remove_account heq.symm),
        List.count_cons_of_ne (fun heq =>
          cancelSuspended_ne_remove_account heq.symm),
        List.count_cons_self,
        hs2 _ (fun cmd hm => (havoid cmd (Or.inr hm)).2.2)]
    have hassoc : slurm_project_accounts projects accts clusters
        protected_accounts
        = (s1 ++ [cancelPendingCmd p c, cancelSuspendedCmd p c])
          ++ (create_remove_account_command p c :: s2) := by
      rw [hsplit]
      simp [List.append_assoc]
    have hprecP : precedes (cancelPendingCmd p c)
        (create_remove_account_command p c)
        (slurm_project_accounts projects accts clusters
          protected_accounts) := by
      rw [hassoc]
      apply precedes_of_split
      · intro hmem
        rcases List.mem_cons.mp hmem with heq | hmem2
        · exact cancelPending_ne_remove_account heq
        · exact (havoid _ (Or.inr hmem2)).1 rfl
      · intro hmem
        rcases List.mem_append.mp hmem with hmem2 | hmem2
        · exact (havoid _ (Or.inl hmem2)).2.2 rfl
        · rcases List.mem_cons.mp hmem2 with heq | hmem3
          · exact cancelPending_ne_remove_account heq.symm
          · rcases List.mem_cons.mp hmem3 with heq | hmem4
            · exact cancelSuspended_ne_remove_account heq.symm
            · exact absurd hmem4 (List.not_mem_nil _)
    have hprecS : precedes (cancelSuspendedCmd p c)
        (create_remove_account_command p c)
        (slurm_project_accounts projects accts clusters
          protected_accounts) := by
      rw [hassoc]
      apply precedes_of_split
      · intro hmem
        rcases List.mem_cons.mp hmem with heq | hmem2
        · exact cancelSuspended_ne_remove_account heq
        · exact (havoid _ (Or.inr hmem2)).2.1 rfl
      · intro hmem
        rcases List.mem_append.mp hmem with hmem2 | hmem2
        · exact (havoid _ (Or.inl hmem2)).2.2 rfl
        · rcases List.mem_cons.mp hmem2 with heq | hmem3
          · exact cancelPending_ne_remove_account heq.symm
          · rcases List.mem_cons.mp hmem3 with heq | hmem4
            · exact cancelSuspended_ne_remove_account heq.symm
            · exact absurd hmem4 (List.not_mem_nil _)
    exact ⟨hcntP, hcntS, hcntR, hprecP, hprecS⟩

/-- C1 witness: the spec's example — project `gpr_compute_project5`
observed on `mycluster`, absent from the desired projects and not
protected, beside the missing desired project `p3` that gets exactly
one add command. -/
theorem claim_C1_witness :
    ((slurm_project_accounts [⟨"p3", 0, 0⟩]
        [⟨"gpr_compute_project5", "mycluster", 1⟩] ["mycluster"]
        []).count (projectAddAccountCmd "mycluster" "p3") = 1)
    ∧ ((slurm_project_accounts [⟨"p3", 0, 0⟩]
          [⟨"gpr_compute_project5", "mycluster", 1⟩] ["mycluster"]
          []).count
          (cancelPendingCmd "gpr_compute_project5" "mycluster") = 1
       ∧ (slurm_project_accounts [⟨"p3", 0, 0⟩]
            [⟨"gpr_compute_project5", "mycluster", 1⟩] ["mycluster"]
            []).count
            (cancelSuspendedCmd "gpr_compute_project5" "mycluster") = 1
       ∧ (slurm_project_accounts [⟨"p3", 0, 0⟩]
            [⟨"gpr_compute_project5", "mycluster", 1⟩] ["mycluster"]
            []).count
            (create_remove_account_command "gpr_compute_project5"
              "mycluster") = 1
       ∧ precedes (cancelPendingCmd "gpr_compute_project5" "mycluster")
           (create_remove_account_command "gpr_compute_project5"
             "mycluster")
           (slurm_project_accounts [⟨"p3", 0, 0⟩]
             [⟨"gpr_compute_project5", "mycluster", 1⟩] ["mycluster"] [])
       ∧ precedes (cancelSuspendedCmd "gpr_compute_project5" "mycluster")
           (create_remove_account_command "gpr_compute_project5"
             "mycluster")
           (slurm_project_accounts [⟨"p3", 0, 0⟩]
             [⟨"gpr_compute_project5", "mycluster", 1⟩] ["mycluster"]
             [])) :=
  ⟨(claim_C1_project_account_reconciliation [⟨"p3", 0, 0⟩]
      [⟨"gpr_compute_project5", "mycluster", 1⟩] ["mycluster"] []
      "mycluster" "p3" (by decide) (by decide)).1 (by decide),
   (claim_C1_project_account_reconciliation [⟨"p3", 0, 0⟩]
      [⟨"gpr_compute_project5", "mycluster", 1⟩] ["mycluster"] []
      "mycluster" "gpr_compute_project5" (by decide) (by decide)).2
      (by decide) (by decide)⟩

/-! ## Claim C2: ordering of the tier-1 plan -/

theorem add_qos_ne_cancelPending {n a c : String} :
    create_add_qos_command n ≠ cancelPendingCmd a c := by
  intro h
  have := congrArg List.length h
  simp [create_add_qos_command, cancelPendingCmd] at this

theorem add_qos_ne_cancelSuspended {n a c : String} :
    create_add_qos_command n ≠ cancelSuspendedCmd a c := by
  intro h
  have := congrArg List.length h
  simp [create_add_qos_command, cancelSuspendedCmd] at this

theorem add_qos_ne_remove_account {n a c : String} :
    create_add_qos_command n ≠ create_remove_account_command a c := by
  intro h
  have := congrArg List.length h
  simp [create_add_qos_command, create_remove_account_command] at this

theorem add_qos_ne_projectAdd {n c p : String} :
    create_add_qos_command n ≠ projectAddAccountCmd c p := by
  intro h
  have := congrArg List.length h
  simp [create_add_qos_command, projectAddAccountCmd,
    create_add_account_command] at this

theorem modify_qos_ne_cancelPending {n a c : String} {s : Settings} :
    create_modify_qos_command n s ≠ cancelPendingCmd a c := by
  intro h
  have := congrArg List.length h
  simp only [create_modify_qos_command, cancelPendingCmd,
    List.length_append, List.length_map, List.length_cons,
    List.length_nil] at this
  omega

theorem modify_qos_ne_cancelSuspended {n a c : String} {s : Settings} :
    create_modify_qos_command n s ≠ cancelSuspendedCmd a c := by
  intro h
  have := congrArg List.length h
  simp only [create_modify_qos_command, cancelSuspendedCmd,
    List.length_append, List.length_map, List.length_cons,
    List.length_nil] at this
  omega

theorem modify_qos_ne_remove_account {n a c : String} {s : Settings} :
    create_modify_qos_command n s ≠ create_remove_account_command a c := by
  intro h
  have := congrArg List.length h
  simp only [create_modify_qos_command, create_remove_account_command,
    List.length_append, List.length_map, List.length_cons,
    List.length_nil] at this
  omega

theorem modify_qos1_ne_projectAdd {n c p : String} {P : Project} :
    create_modify_qos_command n (projectQosSettings P)
      ≠ projectAddAccountCmd c p := by
  intro h
  have := congrArg List.length h
  simp [create_modify_qos_command, projectQosSettings,
    projectAddAccountCmd, create_add_account_command] at this

theorem remove_qos_ne_cancelPending {n a c : String} :
    create_remove_qos_command n ≠ cancelPendingCmd a c := by
  intro h
  have := congrArg List.length h
  simp [create_remove_qos_command, cancelPendingCmd] at this

theorem remove_qos_ne_cancelSuspended {n a c : String} :
    create_remove_qos_command n ≠ cancelSuspendedCmd a c := by
  intro h
  have := congrArg List.length h
  simp [create_remove_qos_command, cancelSuspendedCmd] at this

theorem remove_qos_ne_remove_account {n a c : String} :
    create_remove_qos_command n ≠ create_remove_account_command a c := by
  intro h
  simp only [create_remove_qos_command, create_remove_account_command,
    List.cons.injEq] at h
  obtain ⟨-, -, hbad, -⟩ := h
  exact absurd hbad (by decide)

theorem remove_qos_ne_projectAdd {n c p : String} :
    create_remove_qos_command n ≠ projectAddAccountCmd c p := by
  intro h
  have := congrArg List.length h
  simp [create_remove_qos_command, projectAddAccountCmd,
    create_add_account_command] at this

/-- Every command of the per-project body of the QoS loop is the add or
the unconditional modify for that project's QoS name. -/
theorem mem_projectQosCmds {cmd : Cmd} {names : List String} {c : String}
    {p : Project} (h : cmd ∈ projectQosCmds names c p) :
    cmd = create_add_qos_command (c ++ "-" ++ p.name)
    ∨ cmd = create_modify_qos_command (c ++ "-" ++ p.name)
        (projectQosSettings p) := by
  simp only [projectQosCmds, List.mem_append] at h
  rcases h with h | h
  · split at h
    · exact absurd h (List.not_mem_nil _)
    · simp only [List.mem_cons, List.not_mem_nil, or_false] at h
      exact Or.inl h
  · simp only [List.mem_cons, List.not_mem_nil, or_false] at h
    exact Or.inr h

/-- Every command of one cluster segment of `slurm_project_qos` is an
add-QoS, a modify-QoS with the project budget settings, or a
remove-QoS. -/
theorem mem_spqCluster {cmd : Cmd} {projects : List Project}
    {qi : List SlurmQos} {c : String}
    (h : cmd ∈ slurmProjectQosCluster projects qi c) :
    (∃ p : Project, cmd = create_add_qos_command (c ++ "-" ++ p.name)
      ∨ cmd = create_modify_qos_command (c ++ "-" ++ p.name)
          (projectQosSettings p))
    ∨ (∃ n, cmd = create_remove_qos_command n) := by
  simp only [slurmProjectQosCluster, List.mem_append] at h
  rcases h with h | h
  · rw [List.mem_flatten] at h
    obtain ⟨blk, hblk, hcmd⟩ := h
    rcases List.mem_map.mp hblk with ⟨p, -, rfl⟩
    exact Or.inl ⟨p, mem_projectQosCmds hcmd⟩
  · rcases List.mem_map.mp h with ⟨n, -, rfl⟩
    exact Or.inr ⟨n, rfl⟩

/-- No command of the QoS plan equals an add-account, job-cancel or
remove-account command of the project-account plan. -/
theorem spq_avoid_acct {cmd : Cmd} {projects : List Project}
    {qi : List SlurmQos} {clusters : List String}
    (h : cmd ∈ slurm_project_qos projects qi clusters) (a c2 p : String) :
    ¬ cmd = projectAddAccountCmd c2 p ∧ ¬ cmd = cancelPendingCmd a c2
    ∧ ¬ cmd = cancelSuspendedCmd a c2
    ∧ ¬ cmd = create_remove_account_command a c2 := by
  simp only [slurm_project_qos] at h
  rw [List.mem_flatten] at h
  obtain ⟨blk, hblk, hcmd⟩ := h
  rcases List.mem_map.mp hblk with ⟨c1, -, rfl⟩
  rcases mem_spqCluster hcmd with ⟨q, hq | hq⟩ | ⟨n, hn⟩
  · subst hq
    exact ⟨add_qos_ne_projectAdd, add_qos_ne_cancelPending,
      add_qos_ne_cancelSuspended, add_qos_ne_remove_account⟩
  · subst hq
    exact ⟨modify_qos1_ne_projectAdd, modify_qos_ne_cancelPending,
      modify_qos_ne_cancelSuspended, modify_qos_ne_remove_account⟩
  · subst hn
    exact ⟨remove_qos_ne_projectAdd, remove_qos_ne_cancelPending,
      remove_qos_ne_cancelSuspended, remove_qos_ne_remove_account⟩

/-- No command of the project-account plan equals an add-QoS command or
a modify-QoS command carrying the project budget settings. -/
theorem spa_avoid_qos {cmd : Cmd} {projects : List Project}
    {ai : List SlurmAccount} {clusters protected_accounts : List String}
    (h : cmd ∈ slurm_project_accounts projects ai clusters
      protected_accounts) (n : String) (P : Project) :
    ¬ cmd = create_add_qos_command n
    ∧ ¬ cmd = create_modify_qos_command n (projectQosSettings P) := by
  simp only [slurm_project_accounts] at h
  rw [List.mem_flatten] at h
  obtain ⟨blk, hblk, hcmd⟩ := h
  rcases List.mem_map.mp hblk with ⟨c1, -, rfl⟩
  rcases mem_spaCluster hcmd with ⟨p2, -, rfl⟩ | ⟨p2, -, -, hcase⟩
  · exact ⟨fun heq => add_qos_ne_projectAdd heq.symm,
      fun heq => modify_qos1_ne_projectAdd heq.symm⟩
  · rcases hcase with rfl | rfl | rfl
    · exact ⟨fun heq => add_qos_ne_cancelPending heq.symm,
        fun heq => modify_qos_ne_cancelPending heq.symm⟩
    · exact ⟨fun heq => add_qos_ne_cancelSuspended heq.symm,
        fun heq => modify_qos_ne_cancelSuspended heq.symm⟩
    · exact ⟨fun heq => add_qos_ne_remove_account heq.symm,
        fun heq => modify_qos_ne_remove_account heq.symm⟩

/-- `precedes` holds vacuously when the later command is absent. -/
theorem precedes_of_not_mem {α : Type} (x y : α) (l : List α)
    (hy : ¬ y ∈ l) : precedes x y l := by
  intro i j hi hj hxi hyj
  rw [List.get_eq_getElem] at hyj
  exact absurd (hyj ▸ List.getElem_mem hj) hy

/-- C2: in the tier-1 plan (QoS commands, then project-account
commands) over a duplicate-free cluster list, the add-QoS and
modify-QoS commands of any project on any cluster appear strictly
before the add-account command of that project on that cluster, and
any job-cancel command for an account on a cluster appears strictly
before the remove-account command for that account on that cluster. -/
theorem claim_C2_tier1_plan_ordering (projects : List Project)
    (slurm_qos_info : List SlurmQos)
    (slurm_account_info : List SlurmAccount)
    (clusters protected_accounts : List String)
    (hclusters : clusters.Nodup) :
    (∀ (P : Project) (c : String),
      precedes (create_add_qos_command (c ++ "-" ++ P.name))
        (projectAddAccountCmd c P.name)
        (tier1_project_plan projects slurm_qos_info slurm_account_info
          clusters protected_accounts)
      ∧ precedes (create_modify_qos_command (c ++ "-" ++ P.name)
            (projectQosSettings P))
          (projectAddAccountCmd c P.name)
          (tier1_project_plan projects slurm_qos_info slurm_account_info
            clusters protected_accounts))
    ∧ (∀ a c2 : String,
      precedes (cancelPendingCmd a c2)
        (create_remove_account_command a c2)
        (tier1_project_plan projects slurm_qos_info slurm_account_info
          clusters protected_accounts)
      ∧ precedes (cancelSuspendedCmd a c2)
        (create_remove_account_command a c2)
        (tier1_project_plan projects slurm_qos_info slurm_account_info
          clusters protected_accounts)) := by
  constructor
  · intro P c
    constructor
    · simp only [tier1_project_plan]
      apply precedes_of_split
      · intro hmem
        exact (spa_avoid_qos hmem (c ++ "-" ++ P.name) P).1 rfl
      · intro hmem
        exact (spq_avoid_acct hmem "" c P.name).1 rfl
    · simp only [tier1_project_plan]
      apply precedes_of_split
      · intro hmem
        exact (spa_avoid_qos hmem (c ++ "-" ++ P.name) P).2 rfl
      · intro hmem
        exact (spq_avoid_acct hmem "" c P.name).1 rfl
  · intro a c2
    by_cases hmem : create_remove_account_command a c2
        ∈ slurm_project_accounts projects slurm_account_info clusters
          protected_accounts
    · have hdata : c2 ∈ clusters
          ∧ a ∈ pyDiff (pySet (dictKeys (get_cluster_accounts
              slurm_account_info c2)))
            (pySet (projects.map Project.name))
          ∧ ¬ a ∈ protected_accounts := by
        simp only [slurm_project_accounts] at hmem
        rw [List.mem_flatten] at hmem
        obtain ⟨blk, hblk, hcmd⟩ := hmem
        rcases List.mem_map.mp hblk with ⟨c1, hc1, rfl⟩
        rcases mem_spaCluster hcmd with ⟨p2, -, heq⟩
          | ⟨p2, hp2, hprot2, hcase⟩
        · exact absurd heq.symm projectAdd_ne_remove_account
        · rcases hcase with heq | heq | heq
          · exact absurd heq.symm cancelPending_ne_remove_account
          · exact absurd heq.symm cancelSuspended_ne_remove_account
          · obtain ⟨hap, hcc⟩ := remove_account_cmd_inj heq
            subst hap
            subst hcc
            exact ⟨hc1, hp2, hprot2⟩
      obtain ⟨hc2, hp, hprot⟩ := hdata
      obtain ⟨s1, s2, hsplit, havoid⟩ := spa_out_remove_split projects
        slurm_account_info clusters protected_accounts c2 a hclusters hc2
        hp hprot
      have hassoc : tier1_project_plan projects slurm_qos_info
          slurm_account_info clusters protected_accounts
          = ((slurm_project_qos projects slurm_qos_info clusters ++ s1)
              ++ [cancelPendingCmd a c2, cancelSuspendedCmd a c2])
            ++ (create_remove_account_command a c2 :: s2) := by
        simp only [tier1_project_plan]
        rw [hsplit]
        simp [List.append_assoc]
      have hrm_not_left : ¬ create_remove_account_command a c2
          ∈ (slurm_project_qos projects slurm_qos_info clusters ++ s1)
            ++ [cancelPendingCmd a c2, cancelSuspendedCmd a c2] := by
        intro hmem2
        rcases List.mem_append.mp hmem2 with hm | hm
        · rcases List.mem_append.mp hm with hmq | hms
          · exact (spq_avoid_acct hmq a c2 "").2.2.2 rfl
          · exact (havoid _ (Or.inl hms)).2.2 rfl
        · rcases List.mem_cons.mp hm with heq | hm2
          · exact cancelPending_ne_remove_account heq.symm
          · rcases List.mem_cons.mp hm2 with heq | hm3
            · exact cancelSuspended_ne_remove_account heq.symm
            · exact absurd hm3 (List.not_mem_nil _)
      constructor
      · rw [hassoc]
        apply precedes_of_split
        · intro hmem2
          rcases List.mem_cons.mp hmem2 with heq | hm2
          · exact cancelPending_ne_remove_account heq
          · exact (havoid _ (Or.inr hm2)).1 rfl
        · exact hrm_not_left
      · rw [hassoc]
        apply precedes_of_split
        · intro hmem2
          rcases List.mem_cons.mp hmem2 with heq | hm2
          · exact cancelSuspended_ne_remove_account heq
          · exact (havoid _ (Or.inr hm2)).2.1 rfl
        · exact hrm_not_left
    · have hy : ¬ create_remove_account_command a c2
          ∈ tier1_project_plan projects slurm_qos_info slurm_account_info
            clusters protected_accounts := by
        simp only [tier1_project_plan]
        intro hmem2
        rcases List.mem_append.mp hmem2 with hm | hm
        · exact (spq_avoid_acct hm a c2 "").2.2.2 rfl
        · exact hmem hm
      exact ⟨precedes_of_not_mem _ _ _ hy, precedes_of_not_mem _ _ _ hy⟩

/-- C2 witness: one desired project `proj7` and one stale account
`oldacct` on the single cluster `clusA`. -/
theorem claim_C2_witness :
    (precedes (create_add_qos_command ("clusA" ++ "-" ++ "proj7"))
      (projectAddAccountCmd "clusA" "proj7")
      (tier1_project_plan [⟨"proj7", 2, 1⟩] [] [⟨"oldacct", "clusA", 1⟩]
        ["clusA"] [])
    ∧ precedes (create_modify_qos_command ("clusA" ++ "-" ++ "proj7")
        (projectQosSettings ⟨"proj7", 2, 1⟩))
      (projectAddAccountCmd "clusA" "proj7")
      (tier1_project_plan [⟨"proj7", 2, 1⟩] [] [⟨"oldacct", "clusA", 1⟩]
        ["clusA"] []))
    ∧ (precedes (cancelPendingCmd "oldacct" "clusA")
        (create_remove_account_command "oldacct" "clusA")
        (tier1_project_plan [⟨"proj7", 2, 1⟩] [] [⟨"oldacct", "clusA", 1⟩]
          ["clusA"] [])
      ∧ precedes (cancelSuspendedCmd "oldacct" "clusA")
        (create_remove_account_command "oldacct" "clusA")
        (tier1_project_plan [⟨"proj7", 2, 1⟩] [] [⟨"oldacct", "clusA", 1⟩]
          ["clusA"] [])) :=
  ⟨(claim_C2_tier1_plan_ordering [⟨"proj7", 2, 1⟩] []
      [⟨"oldacct", "clusA", 1⟩] ["clusA"] [] (by decide)).1
      ⟨"proj7", 2, 1⟩ "clusA",
   (claim_C2_tier1_plan_ordering [⟨"proj7", 2, 1⟩] []
      [⟨"oldacct", "clusA", 1⟩] ["clusA"] [] (by decide)).2
      "oldacct" "clusA"⟩

end VscAdmin
